import Mathlib

/-!
# User route handlers of gophermart (`internal/http/v1/users.go`)

A shallow embedding of the handlers `PostOrders`, `GetOrders`, `GetBalance`,
`PostWithdraw` and `GetWithdrawals`.

* The `http.ResponseWriter` is an explicit value that the handler threads
  through (`WriteHeader`, `Write`, `http.Error`).
* The service layer (`h.services.Users`, `h.services.Updater`) is a record of
  state-passing functions over an arbitrary service state `σ`; every call a
  handler makes is appended, with its arguments and the error it returned, to
  a call log.
* What a handler obtains from the request (`io.ReadAll`, the JSON decoder,
  the context value under `userCtx`, the clock) is a field of `http.Request`.
* `luhn.Valid` and `json.Marshal` live outside this file of the repository;
  the handlers take them as parameters (`Imports`).
-/

set_option autoImplicit false

/-! ## Go values used by the handlers -/

/-- The Go type `float32`: an IEEE-754 binary32 value given by its bit fields. -/
structure Float32 where
  sign : Bool
  exponent : Fin 256
  mantissa : Fin 8388608
deriving DecidableEq, Repr

namespace Float32

/-- The value of the Go constant `0` at type `float32` (positive zero), also
the zero value of a `float32` field. -/
def zero : Float32 := ⟨false, 0, 0⟩

/-- Not-a-number: all exponent bits set and a non-zero mantissa. -/
def isNaN (x : Float32) : Bool := x.exponent.val == 255 && x.mantissa.val != 0

/-- Either of the two zeros. -/
def isZero (x : Float32) : Bool := x.exponent.val == 0 && x.mantissa.val == 0

/-- The Go comparison `x > 0` on `float32`. -/
def gtZero (x : Float32) : Bool := !x.sign && !x.isNaN && !x.isZero

end Float32

namespace domain

/-- The sentinel errors of package `domain` that the handlers test with
`errors.Is`. -/
inductive Sentinel where
  | ErrRepeatedOrderRequest
  | ErrForeignOrder
  | ErrOrdersNotFound
  | ErrWithdrawalInsufficientFunds
  | ErrWithdrawalNotFound
deriving DecidableEq, Repr

end domain

/-- A non-nil Go `error`: the text of `err.Error()` and the sentinels found in
its chain (an error may wrap several, or none). -/
structure GoError where
  msg : String
  chain : List domain.Sentinel
deriving DecidableEq, Repr

namespace GoError

/-- The method `err.Error()`. -/
def Error (e : GoError) : String := e.msg

end GoError

namespace errors

/-- The call `errors.Is(err, target)` for a sentinel target. -/
def Is (err : GoError) (target : domain.Sentinel) : Bool := decide (target ∈ err.chain)

end errors

namespace domain

/-- Modelled from the spec: the order statuses of package `domain` are not
among the sources; these are the four states the specification lists, and
`OrderStatusNew` is the constant the handler uses. -/
inductive OrderStatus where
  | OrderStatusNew
  | OrderStatusProcessing
  | OrderStatusProcessed
  | OrderStatusInvalid
deriving DecidableEq, Repr

/-- The type `domain.Time` (a wrapper of `time.Time`), as a clock reading. -/
abbrev Time := Nat

/-- The struct `domain.Order` with the fields the handler sets. `Accrual` is
taken to be a `float32`, the type this package uses for point amounts. -/
structure Order where
  Number : String
  UserID : Int
  Status : OrderStatus
  Accrual : Float32
  UploadedAt : Time
deriving DecidableEq, Repr

end domain

namespace service

/-- The struct `service.UserWithdrawInput`. -/
structure UserWithdrawInput where
  Order : String
  Sum : Float32
deriving DecidableEq, Repr

end service

/-- The struct `withdrawInput` (JSON body of a withdrawal request). -/
structure withdrawInput where
  Order : String
  Sum : Float32
deriving DecidableEq, Repr

/-! ## `strings.TrimSpace` -/

namespace unicode

/-- The predicate `unicode.IsSpace`: the characters with the Unicode
White_Space property. -/
def IsSpace (c : Char) : Bool :=
  let n := c.toNat
  n == 0x09 || n == 0x0A || n == 0x0B || n == 0x0C || n == 0x0D || n == 0x20 ||
  n == 0x85 || n == 0xA0 || n == 0x1680 || (0x2000 ≤ n && n ≤ 0x200A) ||
  n == 0x2028 || n == 0x2029 || n == 0x202F || n == 0x205F || n == 0x3000

end unicode

namespace strings

/-- The function `strings.TrimSpace`: the string without its leading and
trailing white space. -/
def TrimSpace (s : String) : String :=
  String.mk ((s.data.dropWhile unicode.IsSpace).reverse.dropWhile unicode.IsSpace).reverse

end strings

/-! ## `net/http` -/

namespace http

def StatusOK : Nat := 200
def StatusAccepted : Nat := 202
def StatusNoContent : Nat := 204
def StatusBadRequest : Nat := 400
def StatusPaymentRequired : Nat := 402
def StatusConflict : Nat := 409
def StatusUnprocessableEntity : Nat := 422
def StatusInternalServerError : Nat := 500

/-- The state of an `http.ResponseWriter`: the header map, the status code
once it has been written, and the bytes written to the body. -/
structure ResponseWriter where
  header : List (String × String)
  status : Option Nat
  body : String
deriving DecidableEq, Repr

namespace ResponseWriter

/-- A fresh response: nothing written yet. -/
def new : ResponseWriter := ⟨[], none, ""⟩

/-- The call `w.Header().Set(key, value)`. -/
def SetHeader (w : ResponseWriter) (key value : String) : ResponseWriter :=
  { w with header := (key, value) :: w.header.filter (fun kv => kv.1 != key) }

/-- The call `w.WriteHeader(code)`: the first status written is the one sent. -/
def WriteHeader (w : ResponseWriter) (code : Nat) : ResponseWriter :=
  match w.status with
  | some _ => w
  | none => { w with status := some code }

/-- The call `w.Write(data)`: writes the header with status 200 if none was
written, then the data. -/
def Write (w : ResponseWriter) (data : String) : ResponseWriter :=
  let w1 := w.WriteHeader StatusOK
  { w1 with body := w1.body ++ data }

end ResponseWriter

/-- The function `http.Error(w, error, code)`: plain-text headers, the status
code, and the message followed by a newline. -/
def Error (w : ResponseWriter) (error : String) (code : Nat) : ResponseWriter :=
  let w1 := w.SetHeader "Content-Type" "text/plain; charset=utf-8"
  let w2 := w1.SetHeader "X-Content-Type-Options" "nosniff"
  let w3 := w2.WriteHeader code
  w3.Write (error ++ "\n")

/-- What a handler reads from an `*http.Request`. -/
structure Request where
  /-- The result of `io.ReadAll(r.Body)`. -/
  readAll : Except GoError String
  /-- The result of `json.NewDecoder(r.Body).Decode(&inp)` into a zero
  `withdrawInput`. -/
  decodeWithdraw : Except GoError withdrawInput
  /-- The value `r.Context().Value(userCtx)`; `none` is the nil interface. The
  values stored under `userCtx` are Go `int`s, the type the handlers assert. -/
  userCtx : Option Int
  /-- The reading of `time.Now()` while the request is handled. -/
  now : domain.Time

end http

/-! ## The service layer and the imported packages -/

/-- One entry of the call log: a service method a handler invoked, with the
arguments it passed and the error the method returned (`none` is nil). -/
inductive Call where
  | UsersAddOrder (order : domain.Order) (err : Option GoError)
  | UpdaterAddOrder (order : domain.Order)
  | UsersGetOrders (userID : Int) (err : Option GoError)
  | UsersGetBalance (userID : Int) (err : Option GoError)
  | UsersWithdraw (userID : Int) (inp : service.UserWithdrawInput) (err : Option GoError)
  | UsersGetUserWithdrawals (userID : Int) (err : Option GoError)
deriving DecidableEq, Repr

namespace service

/-- The interface `h.services.Users`, over a service state `σ`. `Os`, `B` and
`Ws` are the types of the order list, the balance and the withdrawal list the
read methods return. -/
structure Users (σ Os B Ws : Type) where
  AddOrder : σ → domain.Order → Option GoError × σ
  GetOrders : σ → Int → Except GoError Os × σ
  GetBalance : σ → Int → Except GoError B × σ
  Withdraw : σ → Int → UserWithdrawInput → Option GoError × σ
  GetUserWithdrawals : σ → Int → Except GoError Ws × σ

/-- The interface `h.services.Updater`: `AddOrder` returns nothing. -/
structure Updater (σ : Type) where
  AddOrder : σ → domain.Order → σ

/-- The struct `service.Services`. -/
structure Services (σ Os B Ws : Type) where
  Users : Users σ Os B Ws
  Updater : Updater σ

end service

/-- The struct `Handler` of package `v1`. -/
structure Handler (σ Os B Ws : Type) where
  services : service.Services σ Os B Ws

/-- The functions of other packages the handlers call: `luhn.Valid` and
`json.Marshal` at the three result types. -/
structure Imports (Os B Ws : Type) where
  luhnValid : String → Bool
  marshalOrders : Os → Except GoError String
  marshalBalance : B → Except GoError String
  marshalWithdrawals : Ws → Except GoError String

/-- What running a handler on a request leaves behind: the response writer,
the service calls made in order, the lines printed to standard output, and
the service state. -/
structure Outcome (σ : Type) where
  w : http.ResponseWriter
  calls : List Call
  stdout : List String
  st : σ

/-! ## The handlers -/

section Handlers

variable {σ Os B Ws : Type}

/-- The handler `PostOrders`: upload of an order number. -/
def PostOrders (imp : Imports Os B Ws) (h : Handler σ Os B Ws) (st : σ) (r : http.Request) :
    Outcome σ :=
  let w := http.ResponseWriter.new
  let out := ["PostOrders"]
  match r.readAll with
  | .error err => ⟨http.Error w err.Error http.StatusBadRequest, [], out, st⟩
  | .ok orderID =>
    let orderIDStr := strings.TrimSpace orderID
    if !imp.luhnValid orderIDStr then
      ⟨http.Error w "invalid order number format" http.StatusUnprocessableEntity, [], out, st⟩
    else
      let userIDCtx : Int :=
        match r.userCtx with
        | some id => id
        | none => 0
      let order : domain.Order :=
        { Number := orderIDStr
          UserID := userIDCtx
          Status := domain.OrderStatus.OrderStatusNew
          Accrual := Float32.zero
          UploadedAt := r.now }
      match h.services.Users.AddOrder st order with
      | (some err, st1) =>
        if errors.Is err domain.Sentinel.ErrRepeatedOrderRequest then
          ⟨http.Error w err.Error http.StatusOK, [Call.UsersAddOrder order (some err)], out, st1⟩
        else if errors.Is err domain.Sentinel.ErrForeignOrder then
          ⟨http.Error w err.Error http.StatusConflict,
            [Call.UsersAddOrder order (some err)], out, st1⟩
        else
          ⟨http.Error w err.Error http.StatusInternalServerError,
            [Call.UsersAddOrder order (some err)], out, st1⟩
      | (none, st1) =>
        let st2 := h.services.Updater.AddOrder st1 order
        ⟨w.WriteHeader http.StatusAccepted,
          [Call.UsersAddOrder order none, Call.UpdaterAddOrder order], out, st2⟩

/-- The handler `GetOrders`: the orders of the user. -/
def GetOrders (imp : Imports Os B Ws) (h : Handler σ Os B Ws) (st : σ) (r : http.Request) :
    Outcome σ :=
  let w := http.ResponseWriter.new
  let out := ["GetOrders"]
  let userIDCtx : Int :=
    match r.userCtx with
    | some id => id
    | none => 0
  match h.services.Users.GetOrders st userIDCtx with
  | (.error err, st1) =>
    if errors.Is err domain.Sentinel.ErrOrdersNotFound then
      ⟨http.Error w err.Error http.StatusNoContent,
        [Call.UsersGetOrders userIDCtx (some err)], out, st1⟩
    else
      ⟨http.Error w err.Error http.StatusInternalServerError,
        [Call.UsersGetOrders userIDCtx (some err)], out, st1⟩
  | (.ok orders, st1) =>
    match imp.marshalOrders orders with
    | .error err =>
      ⟨http.Error w err.Error http.StatusInternalServerError,
        [Call.UsersGetOrders userIDCtx none], out, st1⟩
    | .ok result =>
      let w1 := w.SetHeader "content-type" "application/json; charset=utf-8"
      let w2 := w1.WriteHeader http.StatusOK
      ⟨w2.Write result, [Call.UsersGetOrders userIDCtx none], out, st1⟩

/-- The handler `GetBalance`: the current balance of the user. -/
def GetBalance (imp : Imports Os B Ws) (h : Handler σ Os B Ws) (st : σ) (r : http.Request) :
    Outcome σ :=
  let w := http.ResponseWriter.new
  let out := ["GetBalance"]
  let userIDCtx : Int :=
    match r.userCtx with
    | some id => id
    | none => 0
  match h.services.Users.GetBalance st userIDCtx with
  | (.error err, st1) =>
    ⟨http.Error w err.Error http.StatusInternalServerError,
      [Call.UsersGetBalance userIDCtx (some err)], out, st1⟩
  | (.ok balance, st1) =>
    match imp.marshalBalance balance with
    | .error err =>
      ⟨http.Error w err.Error http.StatusInternalServerError,
        [Call.UsersGetBalance userIDCtx none], out, st1⟩
    | .ok result =>
      let w1 := w.SetHeader "content-type" "application/json; charset=utf-8"
      let w2 := w1.WriteHeader http.StatusOK
      ⟨w2.Write result, [Call.UsersGetBalance userIDCtx none], out, st1⟩

/-- The handler `PostWithdraw`: withdrawal of points. -/
def PostWithdraw (imp : Imports Os B Ws) (h : Handler σ Os B Ws) (st : σ) (r : http.Request) :
    Outcome σ :=
  let w := http.ResponseWriter.new
  let out := ["PostWithdraw"]
  let userIDCtx : Int :=
    match r.userCtx with
    | some id => id
    | none => 0
  match r.decodeWithdraw with
  | .error err => ⟨http.Error w err.Error http.StatusBadRequest, [], out, st⟩
  | .ok inp =>
    if !imp.luhnValid inp.Order then
      ⟨http.Error w "invalid order number format" http.StatusUnprocessableEntity, [], out, st⟩
    else
      let arg : service.UserWithdrawInput := { Order := inp.Order, Sum := inp.Sum }
      match h.services.Users.Withdraw st userIDCtx arg with
      | (some err, st1) =>
        if errors.Is err domain.Sentinel.ErrWithdrawalInsufficientFunds then
          ⟨http.Error w err.Error http.StatusPaymentRequired,
            [Call.UsersWithdraw userIDCtx arg (some err)], out, st1⟩
        else
          ⟨http.Error w err.Error http.StatusInternalServerError,
            [Call.UsersWithdraw userIDCtx arg (some err)], out, st1⟩
      | (none, st1) =>
        ⟨w.WriteHeader http.StatusOK, [Call.UsersWithdraw userIDCtx arg none], out, st1⟩

/-- The handler `GetWithdrawals`: the withdrawals of the user. -/
def GetWithdrawals (imp : Imports Os B Ws) (h : Handler σ Os B Ws) (st : σ) (r : http.Request) :
    Outcome σ :=
  let w := http.ResponseWriter.new
  let out := ["GetWithdrawals"]
  let userIDCtx : Int :=
    match r.userCtx with
    | some id => id
    | none => 0
  match h.services.Users.GetUserWithdrawals st userIDCtx with
  | (.error err, st1) =>
    if errors.Is err domain.Sentinel.ErrWithdrawalNotFound then
      ⟨http.Error w err.Error http.StatusNoContent,
        [Call.UsersGetUserWithdrawals userIDCtx (some err)], out, st1⟩
    else
      ⟨http.Error w err.Error http.StatusInternalServerError,
        [Call.UsersGetUserWithdrawals userIDCtx (some err)], out, st1⟩
  | (.ok withdrawals, st1) =>
    match imp.marshalWithdrawals withdrawals with
    | .error err =>
      ⟨http.Error w err.Error http.StatusInternalServerError,
        [Call.UsersGetUserWithdrawals userIDCtx none], out, st1⟩
    | .ok result =>
      let w1 := w.SetHeader "content-type" "application/json; charset=utf-8"
      let w2 := w1.WriteHeader http.StatusOK
      ⟨w2.Write result, [Call.UsersGetUserWithdrawals userIDCtx none], out, st1⟩

end Handlers

/-! ## The checksum validator and sample collaborators -/

namespace luhn

/-- Modelled from the spec: the sum of the mod-10 double-alternate-digit
checksum over the digits taken from the rightmost one; `double` tells whether
the next digit is one that is doubled (nine is subtracted when the doubled
digit exceeds nine). -/
def checksum : Bool → List Nat → Nat
  | _, [] => 0
  | false, d :: ds => d + checksum true ds
  | true, d :: ds => (if 2 * d > 9 then 2 * d - 9 else 2 * d) + checksum false ds

/-- Modelled from the spec: the function `luhn.Valid` of package `luhn` is not
among the sources. It rejects the empty string and every string with a
character that is not an ASCII digit, and accepts a digit string exactly when
its checksum is divisible by ten. -/
def Valid (s : String) : Bool :=
  !s.data.isEmpty && s.data.all (fun c => 48 ≤ c.toNat && c.toNat ≤ 57) &&
    checksum false (s.data.reverse.map (fun c => c.toNat - 48)) % 10 == 0

end luhn

namespace sample

/-- Imports over unit payloads: the checksum validator above and a marshaller
that never fails. -/
def imports : Imports Unit Unit Unit :=
  { luhnValid := luhn.Valid
    marshalOrders := fun _ => .ok "[]"
    marshalBalance := fun _ => .ok "0"
    marshalWithdrawals := fun _ => .ok "[]" }

/-- A handler over a service whose state counts the calls it served and whose
methods return the given results. -/
def handler (addOrder withdraw : Option GoError) (read : Except GoError Unit) :
    Handler Nat Unit Unit Unit :=
  { services :=
    { Users :=
      { AddOrder := fun st _ => (addOrder, st + 1)
        GetOrders := fun st _ => (read, st + 1)
        GetBalance := fun st _ => (read, st + 1)
        Withdraw := fun st _ _ => (withdraw, st + 1)
        GetUserWithdrawals := fun st _ => (read, st + 1) }
      Updater := { AddOrder := fun st _ => st + 1 } } }

/-- A request of user 7 whose body is a checksum-valid number surrounded by
white space and whose JSON form names that number with sum one. -/
def request : http.Request :=
  { readAll := .ok " 79927398713\n"
    decodeWithdraw := .ok { Order := "79927398713", Sum := ⟨false, 127, 0⟩ }
    userCtx := some 7
    now := 1000 }

def errRepeated : GoError := ⟨"order already uploaded", [domain.Sentinel.ErrRepeatedOrderRequest]⟩
def errForeign : GoError := ⟨"order of another user", [domain.Sentinel.ErrForeignOrder]⟩
def errFunds : GoError := ⟨"insufficient funds", [domain.Sentinel.ErrWithdrawalInsufficientFunds]⟩
def errNoWithdrawals : GoError := ⟨"no withdrawals", [domain.Sentinel.ErrWithdrawalNotFound]⟩
def errStore : GoError := ⟨"store unavailable", []⟩

/-- The sample request with a body that fails the checksum. -/
def invalidRequest : http.Request :=
  { request with
    readAll := .ok "79927398710"
    decodeWithdraw := .ok { Order := "79927398710", Sum := ⟨false, 127, 0⟩ } }

/-- The sample request whose context holds no user. -/
def anonymousRequest : http.Request := { request with userCtx := none }

/-- The sample request asking to withdraw the sum minus one. -/
def negativeRequest : http.Request :=
  { request with decodeWithdraw := .ok { Order := "79927398713", Sum := ⟨true, 127, 0⟩ } }

/-- The sample request whose JSON body has no sum field: the sum stays zero. -/
def zeroRequest : http.Request :=
  { request with decodeWithdraw := .ok { Order := "79927398713", Sum := Float32.zero } }

/-- The order the sample request admits. -/
def order : domain.Order :=
  ⟨"79927398713", 7, domain.OrderStatus.OrderStatusNew, Float32.zero, 1000⟩

/-- A service that accepts everything. -/
def accepting : Handler Nat Unit Unit Unit := handler none none (.ok ())

/-- A service on which every call fails with the given error. -/
def failing (e : GoError) : Handler Nat Unit Unit Unit := handler (some e) (some e) (.error e)

end sample

/-- The number of `Updater.AddOrder` entries in a call log. -/
def updaterAddOrderCount (calls : List Call) : Nat :=
  calls.countP (fun c => match c with
    | Call.UpdaterAddOrder _ => true
    | _ => false)

/-- The error part of a service result, as the call log records it. -/
def errOf {α : Type} : Except GoError α → Option GoError
  | .ok _ => none
  | .error e => some e

/-! ## Fixtures and basic facts -/

/-- The validator accepts the valid fixture of the specification. -/
theorem luhn_fixture_valid : luhn.Valid "79927398713" = true := by decide

/-- The validator rejects the invalid fixture and the empty string. -/
theorem luhn_fixture_invalid : luhn.Valid "79927398710" = false ∧ luhn.Valid "" = false := by
  decide

/-- Trimming removes the white space around the sample body. -/
theorem TrimSpace_fixture : strings.TrimSpace " 79927398713\n" = "79927398713" := by decide

/-- On a fresh response `http.Error` sends the code it is given. -/
theorem http_Error_status (msg : String) (code : Nat) :
    (http.Error http.ResponseWriter.new msg code).status = some code := rfl

/-- On a fresh response `WriteHeader` sends the code it is given. -/
theorem WriteHeader_status (code : Nat) :
    (http.ResponseWriter.new.WriteHeader code).status = some code := rfl

section Claims

variable {σ Os B Ws : Type}

/-- The four ways `PostOrders` can run: the body cannot be read; the trimmed
body fails the checksum; `Users.AddOrder` returns an error; `Users.AddOrder`
returns nil. Each comes with the call log, the status sent and the state. -/
theorem PostOrders_cases (imp : Imports Os B Ws) (h : Handler σ Os B Ws) (st : σ)
    (r : http.Request) :
    (∃ e, r.readAll = .error e ∧ (PostOrders imp h st r).calls = [] ∧
      (PostOrders imp h st r).w.status = some http.StatusBadRequest ∧
      (PostOrders imp h st r).st = st) ∨
    (∃ body, r.readAll = .ok body ∧ imp.luhnValid (strings.TrimSpace body) = false ∧
      (PostOrders imp h st r).calls = [] ∧
      (PostOrders imp h st r).w.status = some http.StatusUnprocessableEntity ∧
      (PostOrders imp h st r).st = st) ∨
    (∃ body e st1, r.readAll = .ok body ∧ imp.luhnValid (strings.TrimSpace body) = true ∧
      h.services.Users.AddOrder st
        ⟨strings.TrimSpace body, r.userCtx.getD 0, domain.OrderStatus.OrderStatusNew,
          Float32.zero, r.now⟩ = (some e, st1) ∧
      (PostOrders imp h st r).calls =
        [Call.UsersAddOrder ⟨strings.TrimSpace body, r.userCtx.getD 0,
          domain.OrderStatus.OrderStatusNew, Float32.zero, r.now⟩ (some e)] ∧
      (PostOrders imp h st r).w.status = some
        (if errors.Is e domain.Sentinel.ErrRepeatedOrderRequest then http.StatusOK
         else if errors.Is e domain.Sentinel.ErrForeignOrder then http.StatusConflict
         else http.StatusInternalServerError) ∧
      (PostOrders imp h st r).st = st1) ∨
    (∃ body st1, r.readAll = .ok body ∧ imp.luhnValid (strings.TrimSpace body) = true ∧
      h.services.Users.AddOrder st
        ⟨strings.TrimSpace body, r.userCtx.getD 0, domain.OrderStatus.OrderStatusNew,
          Float32.zero, r.now⟩ = (none, st1) ∧
      (PostOrders imp h st r).calls =
        [Call.UsersAddOrder ⟨strings.TrimSpace body, r.userCtx.getD 0,
          domain.OrderStatus.OrderStatusNew, Float32.zero, r.now⟩ none,
         Call.UpdaterAddOrder ⟨strings.TrimSpace body, r.userCtx.getD 0,
          domain.OrderStatus.OrderStatusNew, Float32.zero, r.now⟩] ∧
      (PostOrders imp h st r).w.status = some http.StatusAccepted ∧
      (PostOrders imp h st r).st = h.services.Updater.AddOrder st1
        ⟨strings.TrimSpace body, r.userCtx.getD 0, domain.OrderStatus.OrderStatusNew,
          Float32.zero, r.now⟩) := by
  have hid : (match r.userCtx with | some id => id | none => (0 : Int)) = r.userCtx.getD 0 := by
    cases r.userCtx <;> rfl
  unfold PostOrders
  simp only [hid]
  cases hr : r.readAll with
  | error e => left; exact ⟨e, rfl, rfl, http_Error_status _ _, rfl⟩
  | ok body =>
    right
    cases hv : imp.luhnValid (strings.TrimSpace body) with
    | false =>
      left
      exact ⟨body, rfl, hv, by simp [hv], by simp [hv, http_Error_status], by simp [hv]⟩
    | true =>
      right
      cases hs : h.services.Users.AddOrder st
        ⟨strings.TrimSpace body, r.userCtx.getD 0, domain.OrderStatus.OrderStatusNew,
          Float32.zero, r.now⟩ with
      | mk ret st1 =>
        cases ret with
        | none =>
          right
          refine ⟨body, st1, rfl, hv, hs, ?_, ?_, ?_⟩ <;> simp [hv, hs, WriteHeader_status]
        | some e =>
          left
          refine ⟨body, e, st1, rfl, hv, hs, ?_, ?_, ?_⟩ <;>
            (simp only [hv, hs, Bool.not_true, Bool.false_eq_true, if_false]
             split_ifs <;> simp [http_Error_status])

/-- The call log and the final state of `PostOrders` against the service
itself: a logged return of `Users.AddOrder` is what the service returned on
that order in the incoming state; a logged `Updater.AddOrder` means the state
is the one obtained by applying `Updater.AddOrder` once, to that order, after
`Users.AddOrder`; a logged error means the state is the one `Users.AddOrder`
left; an empty log means the state is untouched. -/
theorem PostOrders_service (imp : Imports Os B Ws) (h : Handler σ Os B Ws) (st : σ)
    (r : http.Request) :
    (∀ o ret, Call.UsersAddOrder o ret ∈ (PostOrders imp h st r).calls →
      (h.services.Users.AddOrder st o).1 = ret) ∧
    (∀ o, Call.UpdaterAddOrder o ∈ (PostOrders imp h st r).calls →
      (PostOrders imp h st r).calls = [Call.UsersAddOrder o none, Call.UpdaterAddOrder o] ∧
      (h.services.Users.AddOrder st o).1 = none ∧
      (PostOrders imp h st r).st =
        h.services.Updater.AddOrder (h.services.Users.AddOrder st o).2 o) ∧
    (∀ o e, Call.UsersAddOrder o (some e) ∈ (PostOrders imp h st r).calls →
      (PostOrders imp h st r).calls = [Call.UsersAddOrder o (some e)] ∧
      (PostOrders imp h st r).st = (h.services.Users.AddOrder st o).2) ∧
    ((PostOrders imp h st r).calls = [] → (PostOrders imp h st r).st = st) := by
  rcases PostOrders_cases imp h st r with
    ⟨e, _, hc, _, hst⟩ | ⟨b, _, _, hc, _, hst⟩ | ⟨b, e, st1, _, _, hsv, hc, _, hst⟩ |
    ⟨b, st1, _, _, hsv, hc, _, hst⟩
  · rw [hc, hst]; simp
  · rw [hc, hst]; simp
  · rw [hc, hst]
    refine ⟨?_, ?_, ?_, ?_⟩
    · intro o ret hmem
      simp only [List.mem_singleton, Call.UsersAddOrder.injEq] at hmem
      obtain ⟨rfl, rfl⟩ := hmem
      rw [hsv]
    · intro o hmem; simp at hmem
    · intro o e2 hmem
      simp only [List.mem_singleton, Call.UsersAddOrder.injEq, Option.some.injEq] at hmem
      obtain ⟨rfl, rfl⟩ := hmem
      rw [hsv]; exact ⟨rfl, rfl⟩
    · intro hnil; simp at hnil
  · rw [hc, hst]
    refine ⟨?_, ?_, ?_, ?_⟩
    · intro o ret hmem
      simp only [List.mem_cons, Call.UsersAddOrder.injEq, List.mem_singleton, reduceCtorEq,
        or_false, List.not_mem_nil] at hmem
      obtain ⟨rfl, rfl⟩ := hmem
      rw [hsv]
    · intro o hmem
      simp only [List.mem_cons, Call.UpdaterAddOrder.injEq, List.mem_singleton, reduceCtorEq,
        false_or, or_false, List.not_mem_nil] at hmem
      subst hmem
      rw [hsv]; exact ⟨rfl, rfl, rfl⟩
    · intro o e2 hmem; simp at hmem
    · intro hnil; simp at hnil

/-- A request whose body is read and passes the checksum is admitted:
`Users.AddOrder` is applied in the incoming state to the order built from the
trimmed body, the context value and the clock. If it returns nil,
`Updater.AddOrder` is applied once to the same order in the state
`Users.AddOrder` left and the status is 202; if it returns an error, nothing
more is applied. -/
theorem PostOrders_admission (imp : Imports Os B Ws) (h : Handler σ Os B Ws) (st : σ)
    (r : http.Request) (body : String)
    (hread : r.readAll = .ok body)
    (hvalid : imp.luhnValid (strings.TrimSpace body) = true) :
    Call.UsersAddOrder
        ⟨strings.TrimSpace body, r.userCtx.getD 0, domain.OrderStatus.OrderStatusNew,
          Float32.zero, r.now⟩
        (h.services.Users.AddOrder st
          ⟨strings.TrimSpace body, r.userCtx.getD 0, domain.OrderStatus.OrderStatusNew,
            Float32.zero, r.now⟩).1 ∈ (PostOrders imp h st r).calls ∧
    ((h.services.Users.AddOrder st
        ⟨strings.TrimSpace body, r.userCtx.getD 0, domain.OrderStatus.OrderStatusNew,
          Float32.zero, r.now⟩).1 = none →
      (PostOrders imp h st r).calls =
        [Call.UsersAddOrder ⟨strings.TrimSpace body, r.userCtx.getD 0,
          domain.OrderStatus.OrderStatusNew, Float32.zero, r.now⟩ none,
         Call.UpdaterAddOrder ⟨strings.TrimSpace body, r.userCtx.getD 0,
          domain.OrderStatus.OrderStatusNew, Float32.zero, r.now⟩] ∧
      (PostOrders imp h st r).st = h.services.Updater.AddOrder
        (h.services.Users.AddOrder st
          ⟨strings.TrimSpace body, r.userCtx.getD 0, domain.OrderStatus.OrderStatusNew,
            Float32.zero, r.now⟩).2
        ⟨strings.TrimSpace body, r.userCtx.getD 0, domain.OrderStatus.OrderStatusNew,
          Float32.zero, r.now⟩ ∧
      (PostOrders imp h st r).w.status = some 202) ∧
    (∀ e, (h.services.Users.AddOrder st
        ⟨strings.TrimSpace body, r.userCtx.getD 0, domain.OrderStatus.OrderStatusNew,
          Float32.zero, r.now⟩).1 = some e →
      (PostOrders imp h st r).calls =
        [Call.UsersAddOrder ⟨strings.TrimSpace body, r.userCtx.getD 0,
          domain.OrderStatus.OrderStatusNew, Float32.zero, r.now⟩ (some e)] ∧
      (PostOrders imp h st r).st = (h.services.Users.AddOrder st
        ⟨strings.TrimSpace body, r.userCtx.getD 0, domain.OrderStatus.OrderStatusNew,
          Float32.zero, r.now⟩).2) := by
  rcases PostOrders_cases imp h st r with
    ⟨e, hr, _, _, _⟩ | ⟨b, hr, hv, _, _, _⟩ | ⟨b, e, st1, hr, hv, hsv, hc, _, hst⟩ |
    ⟨b, st1, hr, hv, hsv, hc, hs, hst⟩
  · rw [hread] at hr; cases hr
  · rw [hread] at hr; cases hr; rw [hvalid] at hv; cases hv
  · rw [hread] at hr; cases hr
    rw [hc, hst, hsv]
    refine ⟨List.mem_singleton.mpr rfl, ?_, ?_⟩
    · intro hn; cases hn
    · intro e2 he2; cases he2; exact ⟨rfl, rfl⟩
  · rw [hread] at hr; cases hr
    rw [hc, hst, hs, hsv]
    refine ⟨List.mem_cons_self _ _, ?_, ?_⟩
    · intro _; exact ⟨rfl, rfl, rfl⟩
    · intro e2 he2; cases he2

/-- A body that fails the checksum: status 422, no call, state untouched. -/
theorem PostOrders_invalid_checksum_rejected_aux (imp : Imports Os B Ws) (h : Handler σ Os B Ws)
    (st : σ) (r : http.Request) (body : String)
    (hread : r.readAll = .ok body)
    (hinvalid : imp.luhnValid (strings.TrimSpace body) = false) :
    (PostOrders imp h st r).w.status = some 422 ∧
    (PostOrders imp h st r).calls = [] ∧
    (∀ o ret, Call.UsersAddOrder o ret ∉ (PostOrders imp h st r).calls) ∧
    (∀ o, Call.UpdaterAddOrder o ∉ (PostOrders imp h st r).calls) ∧
    (PostOrders imp h st r).st = st := by
  rcases PostOrders_cases imp h st r with
    ⟨e, hr, _, _, _⟩ | ⟨b, _, _, hc, hs, hst⟩ | ⟨b, e, st1, hr, hv, _, _, _, _⟩ |
    ⟨b, st1, hr, hv, _, _, _, _⟩
  · rw [hread] at hr; cases hr
  · exact ⟨hs, hc, by simp [hc], by simp [hc], hst⟩
  · rw [hread] at hr; cases hr; rw [hinvalid] at hv; cases hv
  · rw [hread] at hr; cases hr; rw [hinvalid] at hv; cases hv

/-- C1: when `Users.AddOrder` returns an error matching
`domain.ErrRepeatedOrderRequest` (the call is made only after the body was read
and its trimmed form passed `luhn.Valid`), `PostOrders` answers 200, a status
of the success class, and every run in which `Users.AddOrder` returns nil
answers 202, a different status. -/
theorem PostOrders_repeated_order_status (imp : Imports Os B Ws) (h : Handler σ Os B Ws)
    (st : σ) (r : http.Request) (o : domain.Order) (err : GoError)
    (hcall : Call.UsersAddOrder o (some err) ∈ (PostOrders imp h st r).calls)
    (hrep : errors.Is err domain.Sentinel.ErrRepeatedOrderRequest = true) :
    (PostOrders imp h st r).w.status = some 200 ∧
    (∃ c, (PostOrders imp h st r).w.status = some c ∧ 200 ≤ c ∧ c < 300) ∧
    ∀ (imp2 : Imports Os B Ws) (h2 : Handler σ Os B Ws) (st2 : σ) (r2 : http.Request)
      (o2 : domain.Order),
      Call.UsersAddOrder o2 none ∈ (PostOrders imp2 h2 st2 r2).calls →
      (PostOrders imp2 h2 st2 r2).w.status = some 202 ∧
      (PostOrders imp h st r).w.status ≠ (PostOrders imp2 h2 st2 r2).w.status := by
  have h200 : (PostOrders imp h st r).w.status = some 200 := by
    rcases PostOrders_cases imp h st r with
      ⟨e, _, hc, _, _⟩ | ⟨b, _, _, hc, _, _⟩ | ⟨b, e, st1, _, _, _, hc, hs, _⟩ |
      ⟨b, st1, _, _, _, hc, _, _⟩
    · simp [hc] at hcall
    · simp [hc] at hcall
    · rw [hc] at hcall
      simp only [List.mem_singleton, Call.UsersAddOrder.injEq, Option.some.injEq] at hcall
      obtain ⟨_, rfl⟩ := hcall
      rw [hs, if_pos hrep]; rfl
    · simp [hc] at hcall
  refine ⟨h200, ⟨200, h200, by decide, by decide⟩, ?_⟩
  intro imp2 h2 st2 r2 o2 hnil
  have h202 : (PostOrders imp2 h2 st2 r2).w.status = some 202 := by
    rcases PostOrders_cases imp2 h2 st2 r2 with
      ⟨e, _, hc, _, _⟩ | ⟨b, _, _, hc, _, _⟩ | ⟨b, e, st1, _, _, _, hc, _, _⟩ |
      ⟨b, st1, _, _, _, _, hs, _⟩
    · simp [hc] at hnil
    · simp [hc] at hnil
    · simp [hc] at hnil
    · rw [hs]; rfl
  refine ⟨h202, ?_⟩
  rw [h200, h202]; decide

/-- C2: when `Users.AddOrder` returns an error that matches
`domain.ErrForeignOrder` and does not match `domain.ErrRepeatedOrderRequest`,
`PostOrders` answers 409 and does not call `Updater.AddOrder`: the log holds
the one call to `Users.AddOrder`, the error logged is what the service
returned, and the final service state is exactly the state `Users.AddOrder`
left, so nothing was enqueued. The same holds at every repetition, in whatever
service state and at whatever time it is made, as long as the service returns
that error: the outcome depends on the result of the service alone. -/
theorem PostOrders_foreign_order_conflict (imp : Imports Os B Ws) (h : Handler σ Os B Ws)
    (st : σ) (r : http.Request) (o : domain.Order) (err : GoError)
    (hcall : Call.UsersAddOrder o (some err) ∈ (PostOrders imp h st r).calls)
    (hforeign : errors.Is err domain.Sentinel.ErrForeignOrder = true)
    (hnotrep : errors.Is err domain.Sentinel.ErrRepeatedOrderRequest = false) :
    (PostOrders imp h st r).w.status = some 409 ∧
    (∀ o2, Call.UpdaterAddOrder o2 ∉ (PostOrders imp h st r).calls) ∧
    updaterAddOrderCount (PostOrders imp h st r).calls = 0 ∧
    (h.services.Users.AddOrder st o).1 = some err ∧
    (PostOrders imp h st r).calls = [Call.UsersAddOrder o (some err)] ∧
    (PostOrders imp h st r).st = (h.services.Users.AddOrder st o).2 ∧
    ∀ (st2 : σ) (r2 : http.Request) (o2 : domain.Order),
      Call.UsersAddOrder o2 (some err) ∈ (PostOrders imp h st2 r2).calls →
      (PostOrders imp h st2 r2).w.status = some 409 ∧
      updaterAddOrderCount (PostOrders imp h st2 r2).calls = 0 ∧
      (PostOrders imp h st2 r2).calls = [Call.UsersAddOrder o2 (some err)] ∧
      (PostOrders imp h st2 r2).st = (h.services.Users.AddOrder st2 o2).2 := by
  have main : ∀ (st : σ) (r : http.Request) (o : domain.Order),
      Call.UsersAddOrder o (some err) ∈ (PostOrders imp h st r).calls →
      (PostOrders imp h st r).w.status = some 409 ∧
      (∀ o2, Call.UpdaterAddOrder o2 ∉ (PostOrders imp h st r).calls) ∧
      updaterAddOrderCount (PostOrders imp h st r).calls = 0 ∧
      (h.services.Users.AddOrder st o).1 = some err ∧
      (PostOrders imp h st r).calls = [Call.UsersAddOrder o (some err)] ∧
      (PostOrders imp h st r).st = (h.services.Users.AddOrder st o).2 := by
    intro st r o hcall
    obtain ⟨hret, _, herr, _⟩ := PostOrders_service imp h st r
    obtain ⟨hlog, hstate⟩ := herr o err hcall
    refine ⟨?_, ?_, ?_, hret o _ hcall, hlog, hstate⟩
    · rcases PostOrders_cases imp h st r with
        ⟨e, _, hc, _, _⟩ | ⟨b, _, _, hc, _, _⟩ | ⟨b, e, st1, _, _, _, hc, hs, _⟩ |
        ⟨b, st1, _, _, _, hc, _, _⟩
      · simp [hc] at hcall
      · simp [hc] at hcall
      · rw [hc] at hcall
        simp only [List.mem_singleton, Call.UsersAddOrder.injEq, Option.some.injEq] at hcall
        obtain ⟨_, rfl⟩ := hcall
        rw [hs, hnotrep, hforeign]; rfl
      · simp [hc] at hcall
    · intro o2; rw [hlog]; simp
    · rw [hlog]; simp [updaterAddOrderCount]
  obtain ⟨h1, h2, h3, h4, h5, h6⟩ := main st r o hcall
  refine ⟨h1, h2, h3, h4, h5, h6, ?_⟩
  intro st2 r2 o2 hcall2
  obtain ⟨k1, _, k3, _, k5, k6⟩ := main st2 r2 o2 hcall2
  exact ⟨k1, k3, k5, k6⟩

/-- C3: when the body is read without error and its white-space-trimmed form
fails `luhn.Valid`, `PostOrders` answers 422 and calls no service method
(neither `Users.AddOrder` nor `Updater.AddOrder`); the service state is left as
it was. -/
theorem PostOrders_invalid_checksum_rejected (imp : Imports Os B Ws) (h : Handler σ Os B Ws)
    (st : σ) (r : http.Request) (body : String)
    (hread : r.readAll = .ok body)
    (hinvalid : imp.luhnValid (strings.TrimSpace body) = false) :
    (PostOrders imp h st r).w.status = some 422 ∧
    (PostOrders imp h st r).calls = [] ∧
    (∀ o ret, Call.UsersAddOrder o ret ∉ (PostOrders imp h st r).calls) ∧
    (∀ o, Call.UpdaterAddOrder o ∉ (PostOrders imp h st r).calls) ∧
    (PostOrders imp h st r).st = st := by
  rcases PostOrders_cases imp h st r with
    ⟨e, hr, _, _, _⟩ | ⟨b, _, _, hc, hs, hst⟩ | ⟨b, e, st1, hr, hv, _, _, _, _⟩ |
    ⟨b, st1, hr, hv, _, _, _, _⟩
  · rw [hread] at hr; cases hr
  · exact ⟨hs, hc, by simp [hc], by simp [hc], hst⟩
  · rw [hread] at hr; cases hr; rw [hinvalid] at hv; cases hv
  · rw [hread] at hr; cases hr; rw [hinvalid] at hv; cases hv

/-- The call log of `PostOrders` holds `Updater.AddOrder` once exactly when it
holds a nil return of `Users.AddOrder`, which is exactly when the status is
202; otherwise it holds none. -/
theorem PostOrders_enqueue_log (imp : Imports Os B Ws) (h : Handler σ Os B Ws)
    (st : σ) (r : http.Request) :
    (updaterAddOrderCount (PostOrders imp h st r).calls = 1 ↔
      ∃ o, Call.UsersAddOrder o none ∈ (PostOrders imp h st r).calls) ∧
    (updaterAddOrderCount (PostOrders imp h st r).calls = 1 ↔
      (PostOrders imp h st r).w.status = some 202) ∧
    ((¬ ∃ o, Call.UsersAddOrder o none ∈ (PostOrders imp h st r).calls) →
      updaterAddOrderCount (PostOrders imp h st r).calls = 0) ∧
    ((∃ e, r.readAll = .error e) →
      updaterAddOrderCount (PostOrders imp h st r).calls = 0) ∧
    (∀ body, r.readAll = .ok body → imp.luhnValid (strings.TrimSpace body) = false →
      updaterAddOrderCount (PostOrders imp h st r).calls = 0) ∧
    (∀ o e, Call.UsersAddOrder o (some e) ∈ (PostOrders imp h st r).calls →
      updaterAddOrderCount (PostOrders imp h st r).calls = 0) ∧
    (∀ o, Call.UpdaterAddOrder o ∈ (PostOrders imp h st r).calls →
      ∀ o2 ret, Call.UsersAddOrder o2 ret ∈ (PostOrders imp h st r).calls →
        o2 = o ∧ ret = none) := by
  rcases PostOrders_cases imp h st r with
    ⟨e, hr, hc, hs, _⟩ | ⟨b, hr, hv, hc, hs, _⟩ | ⟨b, e, st1, hr, hv, _, hc, hs, _⟩ |
    ⟨b, st1, hr, hv, _, hc, hs, _⟩
  · rw [hc, hs]; simp [updaterAddOrderCount, http.StatusBadRequest]
  · rw [hc, hs]; simp [updaterAddOrderCount, http.StatusUnprocessableEntity]
  · rw [hc, hs]
    have hne : (if errors.Is e domain.Sentinel.ErrRepeatedOrderRequest = true then http.StatusOK
        else if errors.Is e domain.Sentinel.ErrForeignOrder = true then http.StatusConflict
        else http.StatusInternalServerError) ≠ 202 := by
      split_ifs <;> decide
    simp [updaterAddOrderCount, hne]
  · rw [hc, hs]
    refine ⟨?_, ?_, ?_, ?_, ?_, ?_, ?_⟩
    · simp [updaterAddOrderCount]
    · simp [updaterAddOrderCount, http.StatusAccepted]
    · intro hno; exact absurd ⟨_, List.mem_cons_self _ _⟩ hno
    · rintro ⟨e, he⟩; rw [hr] at he; cases he
    · intro body hb hinv; rw [hr] at hb; cases hb; rw [hv] at hinv; cases hinv
    · intro o e hmem; simp at hmem
    · intro o hmem o2 ret hmem2
      simp at hmem hmem2
      obtain ⟨rfl, rfl⟩ := hmem2
      exact ⟨hmem.symm, rfl⟩

/-- C4: `PostOrders` calls `Updater.AddOrder` exactly once if and only if
`Users.AddOrder` returned nil, and exactly then the status is 202; in every
other run (read error, invalid checksum, any error from `Users.AddOrder`) it
calls `Updater.AddOrder` zero times. The order given to `Updater.AddOrder` is
the order that was given to `Users.AddOrder`. This is stated on the call log
and on the service itself: a logged return is what `Users.AddOrder` returned;
when the enqueue is logged the final state is `Updater.AddOrder` applied once,
to that same order, in the state `Users.AddOrder` left; when an error is
logged the final state is the one `Users.AddOrder` left; on a read error or an
invalid checksum the state is untouched; and for an admitted request the
enqueue is made exactly when the service returns nil on the order built. -/
theorem PostOrders_enqueue_iff_accepted (imp : Imports Os B Ws) (h : Handler σ Os B Ws)
    (st : σ) (r : http.Request) :
    (updaterAddOrderCount (PostOrders imp h st r).calls = 1 ↔
      ∃ o, Call.UsersAddOrder o none ∈ (PostOrders imp h st r).calls) ∧
    (updaterAddOrderCount (PostOrders imp h st r).calls = 1 ↔
      (PostOrders imp h st r).w.status = some 202) ∧
    ((¬ ∃ o, Call.UsersAddOrder o none ∈ (PostOrders imp h st r).calls) →
      updaterAddOrderCount (PostOrders imp h st r).calls = 0) ∧
    ((∃ e, r.readAll = .error e) →
      updaterAddOrderCount (PostOrders imp h st r).calls = 0) ∧
    (∀ body, r.readAll = .ok body → imp.luhnValid (strings.TrimSpace body) = false →
      updaterAddOrderCount (PostOrders imp h st r).calls = 0) ∧
    (∀ o e, Call.UsersAddOrder o (some e) ∈ (PostOrders imp h st r).calls →
      updaterAddOrderCount (PostOrders imp h st r).calls = 0) ∧
    (∀ o, Call.UpdaterAddOrder o ∈ (PostOrders imp h st r).calls →
      ∀ o2 ret, Call.UsersAddOrder o2 ret ∈ (PostOrders imp h st r).calls →
        o2 = o ∧ ret = none) ∧
    (∀ o ret, Call.UsersAddOrder o ret ∈ (PostOrders imp h st r).calls →
      (h.services.Users.AddOrder st o).1 = ret) ∧
    (∀ o, Call.UpdaterAddOrder o ∈ (PostOrders imp h st r).calls →
      (PostOrders imp h st r).calls = [Call.UsersAddOrder o none, Call.UpdaterAddOrder o] ∧
      (h.services.Users.AddOrder st o).1 = none ∧
      (PostOrders imp h st r).st =
        h.services.Updater.AddOrder (h.services.Users.AddOrder st o).2 o) ∧
    (∀ o e, Call.UsersAddOrder o (some e) ∈ (PostOrders imp h st r).calls →
      (PostOrders imp h st r).calls = [Call.UsersAddOrder o (some e)] ∧
      (PostOrders imp h st r).st = (h.services.Users.AddOrder st o).2) ∧
    ((∃ e, r.readAll = .error e) →
      (PostOrders imp h st r).calls = [] ∧ (PostOrders imp h st r).st = st) ∧
    (∀ body, r.readAll = .ok body → imp.luhnValid (strings.TrimSpace body) = false →
      (PostOrders imp h st r).calls = [] ∧ (PostOrders imp h st r).st = st) ∧
    (∀ body, r.readAll = .ok body → imp.luhnValid (strings.TrimSpace body) = true →
      Call.UsersAddOrder
          ⟨strings.TrimSpace body, r.userCtx.getD 0, domain.OrderStatus.OrderStatusNew,
            Float32.zero, r.now⟩
          (h.services.Users.AddOrder st
            ⟨strings.TrimSpace body, r.userCtx.getD 0, domain.OrderStatus.OrderStatusNew,
              Float32.zero, r.now⟩).1 ∈ (PostOrders imp h st r).calls ∧
      (updaterAddOrderCount (PostOrders imp h st r).calls = 1 ↔
        (h.services.Users.AddOrder st
          ⟨strings.TrimSpace body, r.userCtx.getD 0, domain.OrderStatus.OrderStatusNew,
            Float32.zero, r.now⟩).1 = none) ∧
      ((PostOrders imp h st r).w.status = some 202 ↔
        (h.services.Users.AddOrder st
          ⟨strings.TrimSpace body, r.userCtx.getD 0, domain.OrderStatus.OrderStatusNew,
            Float32.zero, r.now⟩).1 = none)) := by
  obtain ⟨l1, l2, l3, l4, l5, l6, l7⟩ := PostOrders_enqueue_log imp h st r
  obtain ⟨s1, s2, s3, s4⟩ := PostOrders_service imp h st r
  refine ⟨l1, l2, l3, l4, l5, l6, l7, s1, s2, s3, ?_, ?_, ?_⟩
  · rintro ⟨e, he⟩
    rcases PostOrders_cases imp h st r with
      ⟨e, _, hc, _, hst⟩ | ⟨b, hr, _, _, _, _⟩ | ⟨b, e, st1, hr, _, _, _, _, _⟩ |
      ⟨b, st1, hr, _, _, _, _, _⟩
    · exact ⟨hc, hst⟩
    · rw [he] at hr; cases hr
    · rw [he] at hr; cases hr
    · rw [he] at hr; cases hr
  · intro body hread hinv
    obtain ⟨_, hc, _, _, hst⟩ := PostOrders_invalid_checksum_rejected_aux imp h st r body hread hinv
    exact ⟨hc, hst⟩
  · intro body hread hvalid
    obtain ⟨a1, a2, a3⟩ := PostOrders_admission imp h st r body hread hvalid
    refine ⟨a1, ?_, ?_⟩
    · constructor
      · intro hcount
        obtain ⟨o, ho⟩ := l1.mp hcount
        cases hret : (h.services.Users.AddOrder st
          ⟨strings.TrimSpace body, r.userCtx.getD 0, domain.OrderStatus.OrderStatusNew,
            Float32.zero, r.now⟩).1 with
        | none => rfl
        | some e =>
          obtain ⟨hc, _⟩ := a3 e hret
          rw [hc] at ho; simp at ho
      · intro hnone
        exact l1.mpr ⟨_, by rw [(a2 hnone).1]; exact List.mem_cons_self _ _⟩
    · constructor
      · intro hstatus
        obtain ⟨o, ho⟩ := l1.mp (l2.mpr hstatus)
        cases hret : (h.services.Users.AddOrder st
          ⟨strings.TrimSpace body, r.userCtx.getD 0, domain.OrderStatus.OrderStatusNew,
            Float32.zero, r.now⟩).1 with
        | none => rfl
        | some e =>
          obtain ⟨hc, _⟩ := a3 e hret
          rw [hc] at ho; simp at ho
      · intro hnone
        exact (a2 hnone).2.2

/-- Every order in the call log of an admitted request has the fields the
handler sets. -/
theorem PostOrders_order_fields_log (imp : Imports Os B Ws) (h : Handler σ Os B Ws)
    (st : σ) (r : http.Request) (body : String)
    (hread : r.readAll = .ok body)
    (hvalid : imp.luhnValid (strings.TrimSpace body) = true) :
    (∃ o ret, Call.UsersAddOrder o ret ∈ (PostOrders imp h st r).calls) ∧
    ∀ o ret, Call.UsersAddOrder o ret ∈ (PostOrders imp h st r).calls →
      o.Status = domain.OrderStatus.OrderStatusNew ∧
      o.Accrual = Float32.zero ∧
      (∀ id, r.userCtx = some id → o.UserID = id) ∧
      o.Number = strings.TrimSpace body ∧
      imp.luhnValid o.Number = true ∧
      o.UploadedAt = r.now := by
  have key : ∀ (o : domain.Order),
      o = ⟨strings.TrimSpace body, r.userCtx.getD 0, domain.OrderStatus.OrderStatusNew,
        Float32.zero, r.now⟩ →
      o.Status = domain.OrderStatus.OrderStatusNew ∧
      o.Accrual = Float32.zero ∧
      (∀ id, r.userCtx = some id → o.UserID = id) ∧
      o.Number = strings.TrimSpace body ∧
      imp.luhnValid o.Number = true ∧
      o.UploadedAt = r.now := by
    rintro o rfl
    refine ⟨rfl, rfl, ?_, rfl, hvalid, rfl⟩
    intro id hid; simp [hid]
  rcases PostOrders_cases imp h st r with
    ⟨e, hr, _, _, _⟩ | ⟨b, hr, hv, _, _, _⟩ | ⟨b, e, st1, hr, hv, _, hc, _, _⟩ |
    ⟨b, st1, hr, hv, _, hc, _, _⟩
  · rw [hread] at hr; cases hr
  · rw [hread] at hr; cases hr; rw [hvalid] at hv; cases hv
  · rw [hread] at hr; cases hr
    rw [hc]
    refine ⟨⟨_, _, List.mem_singleton.mpr rfl⟩, ?_⟩
    intro o ret hmem
    simp only [List.mem_singleton, Call.UsersAddOrder.injEq] at hmem
    exact key o hmem.1
  · rw [hread] at hr; cases hr
    rw [hc]
    refine ⟨⟨_, _, List.mem_cons_self _ _⟩, ?_⟩
    intro o ret hmem
    simp only [List.mem_cons, Call.UsersAddOrder.injEq, List.mem_singleton, reduceCtorEq,
      or_false, List.not_mem_nil] at hmem
    exact key o hmem.1

/-- C9: a request whose body is read and whose trimmed body passes
`luhn.Valid` reaches admission, and every order `PostOrders` passes to
`Users.AddOrder` has status `OrderStatusNew`, accrual zero, the user identifier
stored in the request context, and as number exactly the trimmed body, the
string on which `luhn.Valid` returned true. The order logged is the order the
service receives: `Users.AddOrder` is applied in the incoming state to exactly
that order, its return is the one logged, and the final state is the state it
left, with `Updater.AddOrder` applied to the same order when it returned
nil. -/
theorem PostOrders_admitted_order_fields (imp : Imports Os B Ws) (h : Handler σ Os B Ws)
    (st : σ) (r : http.Request) (body : String)
    (hread : r.readAll = .ok body)
    (hvalid : imp.luhnValid (strings.TrimSpace body) = true) :
    (∃ o ret, Call.UsersAddOrder o ret ∈ (PostOrders imp h st r).calls) ∧
    (∀ o ret, Call.UsersAddOrder o ret ∈ (PostOrders imp h st r).calls →
      o.Status = domain.OrderStatus.OrderStatusNew ∧
      o.Accrual = Float32.zero ∧
      (∀ id, r.userCtx = some id → o.UserID = id) ∧
      o.Number = strings.TrimSpace body ∧
      imp.luhnValid o.Number = true ∧
      o.UploadedAt = r.now) ∧
    (∀ o ret, Call.UsersAddOrder o ret ∈ (PostOrders imp h st r).calls →
      o = ⟨strings.TrimSpace body, r.userCtx.getD 0, domain.OrderStatus.OrderStatusNew,
        Float32.zero, r.now⟩ ∧
      (h.services.Users.AddOrder st o).1 = ret ∧
      (ret = none → (PostOrders imp h st r).st =
        h.services.Updater.AddOrder (h.services.Users.AddOrder st o).2 o) ∧
      (ret ≠ none → (PostOrders imp h st r).st = (h.services.Users.AddOrder st o).2)) ∧
    Call.UsersAddOrder
        ⟨strings.TrimSpace body, r.userCtx.getD 0, domain.OrderStatus.OrderStatusNew,
          Float32.zero, r.now⟩
        (h.services.Users.AddOrder st
          ⟨strings.TrimSpace body, r.userCtx.getD 0, domain.OrderStatus.OrderStatusNew,
            Float32.zero, r.now⟩).1 ∈ (PostOrders imp h st r).calls := by
  obtain ⟨f1, f2⟩ := PostOrders_order_fields_log imp h st r body hread hvalid
  obtain ⟨a1, a2, a3⟩ := PostOrders_admission imp h st r body hread hvalid
  obtain ⟨s1, _, _, _⟩ := PostOrders_service imp h st r
  refine ⟨f1, f2, ?_, a1⟩
  intro o ret hmem
  have ho : o = ⟨strings.TrimSpace body, r.userCtx.getD 0, domain.OrderStatus.OrderStatusNew,
      Float32.zero, r.now⟩ := by
    cases hret : (h.services.Users.AddOrder st
      ⟨strings.TrimSpace body, r.userCtx.getD 0, domain.OrderStatus.OrderStatusNew,
        Float32.zero, r.now⟩).1 with
    | none =>
      rw [(a2 hret).1] at hmem
      simp only [List.mem_cons, Call.UsersAddOrder.injEq, List.mem_singleton, reduceCtorEq,
        or_false, List.not_mem_nil] at hmem
      exact hmem.1
    | some e =>
      rw [(a3 e hret).1] at hmem
      simp only [List.mem_singleton, Call.UsersAddOrder.injEq] at hmem
      exact hmem.1
  have hret := s1 o ret hmem
  subst ho
  refine ⟨rfl, hret, ?_, ?_⟩
  · intro hn
    rw [hn] at hret
    exact (a2 hret).2.1
  · intro hn
    cases ret with
    | none => exact absurd rfl hn
    | some e => exact (a3 e hret).2

/-- The three ways `PostWithdraw` can run: the body does not decode; the
decoded order fails the checksum; `Users.Withdraw` is called with the decoded
order and sum. Each comes with the call log and the status sent. -/
theorem PostWithdraw_cases (imp : Imports Os B Ws) (h : Handler σ Os B Ws) (st : σ)
    (r : http.Request) :
    (∃ e, r.decodeWithdraw = .error e ∧ (PostWithdraw imp h st r).calls = [] ∧
      (PostWithdraw imp h st r).w.status = some http.StatusBadRequest) ∨
    (∃ inp, r.decodeWithdraw = .ok inp ∧ imp.luhnValid inp.Order = false ∧
      (PostWithdraw imp h st r).calls = [] ∧
      (PostWithdraw imp h st r).w.status = some http.StatusUnprocessableEntity) ∨
    (∃ inp ret st1, r.decodeWithdraw = .ok inp ∧ imp.luhnValid inp.Order = true ∧
      h.services.Users.Withdraw st (r.userCtx.getD 0) ⟨inp.Order, inp.Sum⟩ = (ret, st1) ∧
      (PostWithdraw imp h st r).calls =
        [Call.UsersWithdraw (r.userCtx.getD 0) ⟨inp.Order, inp.Sum⟩ ret] ∧
      (PostWithdraw imp h st r).w.status = some
        (match ret with
         | some e =>
           if errors.Is e domain.Sentinel.ErrWithdrawalInsufficientFunds then
             http.StatusPaymentRequired
           else http.StatusInternalServerError
         | none => http.StatusOK)) := by
  have hid : (match r.userCtx with | some id => id | none => (0 : Int)) = r.userCtx.getD 0 := by
    cases r.userCtx <;> rfl
  unfold PostWithdraw
  simp only [hid]
  cases hr : r.decodeWithdraw with
  | error e => left; exact ⟨e, rfl, rfl, http_Error_status _ _⟩
  | ok inp =>
    right
    cases hv : imp.luhnValid inp.Order with
    | false => left; exact ⟨inp, rfl, hv, by simp [hv], by simp [hv, http_Error_status]⟩
    | true =>
      right
      cases hs : h.services.Users.Withdraw st (r.userCtx.getD 0) ⟨inp.Order, inp.Sum⟩ with
      | mk ret st1 =>
        cases ret with
        | none =>
          refine ⟨inp, none, st1, rfl, hv, hs, ?_, ?_⟩ <;> simp [hv, hs, WriteHeader_status]
        | some e =>
          refine ⟨inp, some e, st1, rfl, hv, hs, ?_, ?_⟩ <;>
            (simp only [hv, hs, Bool.not_true, Bool.false_eq_true, if_false]
             split_ifs <;> simp [http_Error_status])

/-- The one call `GetWithdrawals` makes, and the status for each result of it:
204 for an error matching `ErrWithdrawalNotFound`, 500 for any other error,
and for a nil error 500 or 200 as `json.Marshal` fails or succeeds. -/
theorem GetWithdrawals_cases (imp : Imports Os B Ws) (h : Handler σ Os B Ws) (st : σ)
    (r : http.Request) :
    (∃ e st1, h.services.Users.GetUserWithdrawals st (r.userCtx.getD 0) = (.error e, st1) ∧
      (GetWithdrawals imp h st r).calls =
        [Call.UsersGetUserWithdrawals (r.userCtx.getD 0) (some e)] ∧
      (GetWithdrawals imp h st r).w.status = some
        (if errors.Is e domain.Sentinel.ErrWithdrawalNotFound then http.StatusNoContent
         else http.StatusInternalServerError)) ∨
    (∃ ws st1, h.services.Users.GetUserWithdrawals st (r.userCtx.getD 0) = (.ok ws, st1) ∧
      (GetWithdrawals imp h st r).calls =
        [Call.UsersGetUserWithdrawals (r.userCtx.getD 0) none] ∧
      ((GetWithdrawals imp h st r).w.status = some http.StatusInternalServerError ∨
       (GetWithdrawals imp h st r).w.status = some http.StatusOK)) := by
  have hid : (match r.userCtx with | some id => id | none => (0 : Int)) = r.userCtx.getD 0 := by
    cases r.userCtx <;> rfl
  unfold GetWithdrawals
  simp only [hid]
  cases hs : h.services.Users.GetUserWithdrawals st (r.userCtx.getD 0) with
  | mk res st1 =>
    cases res with
    | error e =>
      left
      refine ⟨e, st1, rfl, ?_, ?_⟩ <;> (simp only []; split_ifs <;> simp [http_Error_status])
    | ok ws =>
      right
      refine ⟨ws, st1, rfl, ?_, ?_⟩
      · simp only []; cases imp.marshalWithdrawals ws <;> rfl
      · simp only []
        cases imp.marshalWithdrawals ws with
        | error e => left; exact http_Error_status _ _
        | ok res => right; rfl

/-- The one call `GetOrders` makes. -/
theorem GetOrders_calls (imp : Imports Os B Ws) (h : Handler σ Os B Ws) (st : σ)
    (r : http.Request) :
    ∃ ret, (GetOrders imp h st r).calls = [Call.UsersGetOrders (r.userCtx.getD 0) ret] := by
  have hid : (match r.userCtx with | some id => id | none => (0 : Int)) = r.userCtx.getD 0 := by
    cases r.userCtx <;> rfl
  unfold GetOrders
  simp only [hid]
  cases hs : h.services.Users.GetOrders st (r.userCtx.getD 0) with
  | mk res st1 =>
    cases res with
    | error e => exact ⟨some e, by simp only []; split_ifs <;> rfl⟩
    | ok os => exact ⟨none, by simp only []; cases imp.marshalOrders os <;> rfl⟩

/-- The one call `GetBalance` makes. -/
theorem GetBalance_calls (imp : Imports Os B Ws) (h : Handler σ Os B Ws) (st : σ)
    (r : http.Request) :
    ∃ ret, (GetBalance imp h st r).calls = [Call.UsersGetBalance (r.userCtx.getD 0) ret] := by
  have hid : (match r.userCtx with | some id => id | none => (0 : Int)) = r.userCtx.getD 0 := by
    cases r.userCtx <;> rfl
  unfold GetBalance
  simp only [hid]
  cases hs : h.services.Users.GetBalance st (r.userCtx.getD 0) with
  | mk res st1 =>
    cases res with
    | error e => exact ⟨some e, rfl⟩
    | ok b => exact ⟨none, by simp only []; cases imp.marshalBalance b <;> rfl⟩

/-- A decoded withdrawal against the service itself. An order that fails the
checksum: status 422, no call, state untouched. An order that passes it:
`Users.Withdraw` is applied once, in the incoming state, to the user
identifier of the context and the decoded order and sum; the log holds that
call with the error the service returned, the final state is the state the
service left, and the status follows from the returned error. -/
theorem PostWithdraw_run (imp : Imports Os B Ws) (h : Handler σ Os B Ws) (st : σ)
    (r : http.Request) (inp : withdrawInput)
    (hdec : r.decodeWithdraw = .ok inp) :
    (imp.luhnValid inp.Order = false →
      (PostWithdraw imp h st r).w.status = some 422 ∧
      (PostWithdraw imp h st r).calls = [] ∧
      (PostWithdraw imp h st r).st = st) ∧
    (imp.luhnValid inp.Order = true →
      (PostWithdraw imp h st r).calls =
        [Call.UsersWithdraw (r.userCtx.getD 0) ⟨inp.Order, inp.Sum⟩
          (h.services.Users.Withdraw st (r.userCtx.getD 0) ⟨inp.Order, inp.Sum⟩).1] ∧
      (PostWithdraw imp h st r).st =
        (h.services.Users.Withdraw st (r.userCtx.getD 0) ⟨inp.Order, inp.Sum⟩).2 ∧
      (PostWithdraw imp h st r).w.status = some
        (match (h.services.Users.Withdraw st (r.userCtx.getD 0) ⟨inp.Order, inp.Sum⟩).1 with
         | some e =>
           if errors.Is e domain.Sentinel.ErrWithdrawalInsufficientFunds then
             http.StatusPaymentRequired
           else http.StatusInternalServerError
         | none => http.StatusOK)) := by
  have hid : (match r.userCtx with | some id => id | none => (0 : Int)) = r.userCtx.getD 0 := by
    cases r.userCtx <;> rfl
  unfold PostWithdraw
  simp only [hid, hdec]
  cases hv : imp.luhnValid inp.Order with
  | false =>
    refine ⟨fun _ => ?_, fun hf => Bool.noConfusion hf⟩
    refine ⟨?_, ?_, ?_⟩ <;> simp [http_Error_status, http.StatusUnprocessableEntity]
  | true =>
    refine ⟨fun hf => Bool.noConfusion hf, fun _ => ?_⟩
    cases hs : h.services.Users.Withdraw st (r.userCtx.getD 0) ⟨inp.Order, inp.Sum⟩ with
    | mk ret st1 =>
      cases ret with
      | none => exact ⟨by simp, by simp, by simp [WriteHeader_status]⟩
      | some e =>
        refine ⟨?_, ?_, ?_⟩ <;>
          (simp only [Bool.not_true, Bool.false_eq_true, if_false]
           split_ifs <;> simp [http_Error_status])

/-- A withdrawal body that does not decode: status 400, no call, state
untouched. -/
theorem PostWithdraw_undecoded (imp : Imports Os B Ws) (h : Handler σ Os B Ws) (st : σ)
    (r : http.Request) (e : GoError) (hdec : r.decodeWithdraw = .error e) :
    (PostWithdraw imp h st r).w.status = some 400 ∧
    (PostWithdraw imp h st r).calls = [] ∧
    (PostWithdraw imp h st r).st = st := by
  unfold PostWithdraw
  rw [hdec]
  exact ⟨http_Error_status _ _, rfl, rfl⟩

/-- The run of `GetBalance` against the service itself: `Users.GetBalance` is
applied once, in the incoming state, to the user identifier of the context;
the log holds that call, the final state is the state the service left, and a
balance that marshals is answered 200. -/
theorem GetBalance_run (imp : Imports Os B Ws) (h : Handler σ Os B Ws) (st : σ)
    (r : http.Request) :
    (GetBalance imp h st r).calls =
      [Call.UsersGetBalance (r.userCtx.getD 0)
        (errOf (h.services.Users.GetBalance st (r.userCtx.getD 0)).1)] ∧
    (GetBalance imp h st r).st = (h.services.Users.GetBalance st (r.userCtx.getD 0)).2 ∧
    (∀ b data, (h.services.Users.GetBalance st (r.userCtx.getD 0)).1 = .ok b →
      imp.marshalBalance b = .ok data → (GetBalance imp h st r).w.status = some 200) := by
  have hid : (match r.userCtx with | some id => id | none => (0 : Int)) = r.userCtx.getD 0 := by
    cases r.userCtx <;> rfl
  unfold GetBalance
  simp only [hid]
  cases hs : h.services.Users.GetBalance st (r.userCtx.getD 0) with
  | mk res st1 =>
    cases res with
    | error e => exact ⟨rfl, rfl, fun b data hb => by cases hb⟩
    | ok b =>
      refine ⟨?_, ?_, ?_⟩
      · simp only []; cases imp.marshalBalance b <;> rfl
      · simp only []; cases imp.marshalBalance b <;> rfl
      · intro b2 data hb hm
        cases hb
        simp only [hm]; rfl

/-- The run of `GetOrders` against the service itself: `Users.GetOrders` is
applied once, in the incoming state, to the user identifier of the context;
the log holds that call, the final state is the state the service left, and a
list that marshals is answered 200. -/
theorem GetOrders_run (imp : Imports Os B Ws) (h : Handler σ Os B Ws) (st : σ)
    (r : http.Request) :
    (GetOrders imp h st r).calls =
      [Call.UsersGetOrders (r.userCtx.getD 0)
        (errOf (h.services.Users.GetOrders st (r.userCtx.getD 0)).1)] ∧
    (GetOrders imp h st r).st = (h.services.Users.GetOrders st (r.userCtx.getD 0)).2 ∧
    (∀ os data, (h.services.Users.GetOrders st (r.userCtx.getD 0)).1 = .ok os →
      imp.marshalOrders os = .ok data → (GetOrders imp h st r).w.status = some 200) := by
  have hid : (match r.userCtx with | some id => id | none => (0 : Int)) = r.userCtx.getD 0 := by
    cases r.userCtx <;> rfl
  unfold GetOrders
  simp only [hid]
  cases hs : h.services.Users.GetOrders st (r.userCtx.getD 0) with
  | mk res st1 =>
    cases res with
    | error e =>
      refine ⟨?_, ?_, fun os data hb => by cases hb⟩ <;> (simp only []; split_ifs <;> rfl)
    | ok os =>
      refine ⟨?_, ?_, ?_⟩
      · simp only []; cases imp.marshalOrders os <;> rfl
      · simp only []; cases imp.marshalOrders os <;> rfl
      · intro os2 data hb hm
        cases hb
        simp only [hm]; rfl

/-- The run of `GetWithdrawals` against the service itself:
`Users.GetUserWithdrawals` is applied once, in the incoming state, to the user
identifier of the context; the log holds that call, the final state is the
state the service left, and a list that marshals is answered 200. -/
theorem GetWithdrawals_run (imp : Imports Os B Ws) (h : Handler σ Os B Ws) (st : σ)
    (r : http.Request) :
    (GetWithdrawals imp h st r).calls =
      [Call.UsersGetUserWithdrawals (r.userCtx.getD 0)
        (errOf (h.services.Users.GetUserWithdrawals st (r.userCtx.getD 0)).1)] ∧
    (GetWithdrawals imp h st r).st =
      (h.services.Users.GetUserWithdrawals st (r.userCtx.getD 0)).2 ∧
    (∀ ws data, (h.services.Users.GetUserWithdrawals st (r.userCtx.getD 0)).1 = .ok ws →
      imp.marshalWithdrawals ws = .ok data →
      (GetWithdrawals imp h st r).w.status = some 200) := by
  have hid : (match r.userCtx with | some id => id | none => (0 : Int)) = r.userCtx.getD 0 := by
    cases r.userCtx <;> rfl
  unfold GetWithdrawals
  simp only [hid]
  cases hs : h.services.Users.GetUserWithdrawals st (r.userCtx.getD 0) with
  | mk res st1 =>
    cases res with
    | error e =>
      refine ⟨?_, ?_, fun ws data hb => by cases hb⟩ <;> (simp only []; split_ifs <;> rfl)
    | ok ws =>
      refine ⟨?_, ?_, ?_⟩
      · simp only []; cases imp.marshalWithdrawals ws <;> rfl
      · simp only []; cases imp.marshalWithdrawals ws <;> rfl
      · intro ws2 data hb hm
        cases hb
        simp only [hm]; rfl

/-- The call log of a decoded withdrawal holds `Users.Withdraw` exactly when
the decoded order passes the checksum. -/
theorem PostWithdraw_calls_log (imp : Imports Os B Ws) (h : Handler σ Os B Ws)
    (st : σ) (r : http.Request) (inp : withdrawInput)
    (hdec : r.decodeWithdraw = .ok inp) :
    ((∃ uid arg ret, Call.UsersWithdraw uid arg ret ∈ (PostWithdraw imp h st r).calls) ↔
      imp.luhnValid inp.Order = true) ∧
    (imp.luhnValid inp.Order = false →
      (PostWithdraw imp h st r).w.status = some 422 ∧ (PostWithdraw imp h st r).calls = []) ∧
    (imp.luhnValid inp.Order = true →
      ∃ uid ret, (PostWithdraw imp h st r).calls =
        [Call.UsersWithdraw uid ⟨inp.Order, inp.Sum⟩ ret]) := by
  rcases PostWithdraw_cases imp h st r with
    ⟨e, hr, _, _⟩ | ⟨i, hr, hv, hc, hs⟩ | ⟨i, ret, st1, hr, hv, _, hc, _⟩
  · rw [hdec] at hr; cases hr
  · rw [hdec] at hr; cases hr
    rw [hc, hs, hv]; simp [http.StatusUnprocessableEntity]
  · rw [hdec] at hr; cases hr
    rw [hc, hv]
    refine ⟨?_, ?_, ?_⟩
    · simp
    · intro hf; cases hf
    · intro _; exact ⟨_, _, rfl⟩

/-- C5: when the JSON body decodes, `PostWithdraw` calls `Users.Withdraw` if
and only if `luhn.Valid` holds of the decoded order field. When it does not
hold the status is 422, no call is made and the service state is untouched;
when it holds, and whatever else is true of that order, `Users.Withdraw` is
applied once in the incoming state to the decoded order and sum, the log
holds that call with the error the service returned, and the final state is
the state the service left. -/
theorem PostWithdraw_calls_iff_checksum_valid (imp : Imports Os B Ws) (h : Handler σ Os B Ws)
    (st : σ) (r : http.Request) (inp : withdrawInput)
    (hdec : r.decodeWithdraw = .ok inp) :
    ((∃ uid arg ret, Call.UsersWithdraw uid arg ret ∈ (PostWithdraw imp h st r).calls) ↔
      imp.luhnValid inp.Order = true) ∧
    (imp.luhnValid inp.Order = false →
      (PostWithdraw imp h st r).w.status = some 422 ∧ (PostWithdraw imp h st r).calls = []) ∧
    (imp.luhnValid inp.Order = true →
      ∃ uid ret, (PostWithdraw imp h st r).calls =
        [Call.UsersWithdraw uid ⟨inp.Order, inp.Sum⟩ ret]) ∧
    (imp.luhnValid inp.Order = false → (PostWithdraw imp h st r).st = st) ∧
    (imp.luhnValid inp.Order = true →
      (PostWithdraw imp h st r).calls =
        [Call.UsersWithdraw (r.userCtx.getD 0) ⟨inp.Order, inp.Sum⟩
          (h.services.Users.Withdraw st (r.userCtx.getD 0) ⟨inp.Order, inp.Sum⟩).1] ∧
      (PostWithdraw imp h st r).st =
        (h.services.Users.Withdraw st (r.userCtx.getD 0) ⟨inp.Order, inp.Sum⟩).2) := by
  obtain ⟨l1, l2, l3⟩ := PostWithdraw_calls_log imp h st r inp hdec
  obtain ⟨r1, r2⟩ := PostWithdraw_run imp h st r inp hdec
  exact ⟨l1, l2, l3, fun hv => (r1 hv).2.2, fun hv => ⟨(r2 hv).1, (r2 hv).2.1⟩⟩

/-- C6: when `PostWithdraw` has called `Users.Withdraw`, the status is 402
exactly when the call returned an error matching
`domain.ErrWithdrawalInsufficientFunds`, 500 exactly when it returned an error
not matching it, and 200 exactly when it returned nil. -/
theorem PostWithdraw_status_by_service_result (imp : Imports Os B Ws) (h : Handler σ Os B Ws)
    (st : σ) (r : http.Request) (uid : Int) (arg : service.UserWithdrawInput)
    (ret : Option GoError)
    (hcall : Call.UsersWithdraw uid arg ret ∈ (PostWithdraw imp h st r).calls) :
    ((PostWithdraw imp h st r).w.status = some 402 ↔
      ∃ e, ret = some e ∧ errors.Is e domain.Sentinel.ErrWithdrawalInsufficientFunds = true) ∧
    ((PostWithdraw imp h st r).w.status = some 500 ↔
      ∃ e, ret = some e ∧ errors.Is e domain.Sentinel.ErrWithdrawalInsufficientFunds = false) ∧
    ((PostWithdraw imp h st r).w.status = some 200 ↔ ret = none) := by
  rcases PostWithdraw_cases imp h st r with
    ⟨e, _, hc, _⟩ | ⟨i, _, _, hc, _⟩ | ⟨i, ret1, st1, _, _, _, hc, hs⟩
  · simp [hc] at hcall
  · simp [hc] at hcall
  · rw [hc] at hcall
    simp only [List.mem_singleton, Call.UsersWithdraw.injEq] at hcall
    obtain ⟨_, _, rfl⟩ := hcall
    rw [hs]
    cases ret with
    | none => simp [http.StatusOK]
    | some e =>
      cases hm : errors.Is e domain.Sentinel.ErrWithdrawalInsufficientFunds <;>
        simp [hm, http.StatusPaymentRequired, http.StatusInternalServerError]

/-- A logged call of `Users.Withdraw` carries the decoded order and sum. -/
theorem PostWithdraw_forwards_log (imp : Imports Os B Ws) (h : Handler σ Os B Ws)
    (st : σ) (r : http.Request) (uid : Int) (arg : service.UserWithdrawInput)
    (ret : Option GoError)
    (hcall : Call.UsersWithdraw uid arg ret ∈ (PostWithdraw imp h st r).calls) :
    ∃ inp, r.decodeWithdraw = .ok inp ∧ imp.luhnValid inp.Order = true ∧
      arg.Order = inp.Order ∧ arg.Sum = inp.Sum ∧
      (PostWithdraw imp h st r).calls = [Call.UsersWithdraw uid arg ret] := by
  rcases PostWithdraw_cases imp h st r with
    ⟨e, _, hc, _⟩ | ⟨i, _, _, hc, _⟩ | ⟨i, ret1, st1, hr, hv, _, hc, _⟩
  · simp [hc] at hcall
  · simp [hc] at hcall
  · rw [hc] at hcall
    simp only [List.mem_singleton, Call.UsersWithdraw.injEq] at hcall
    obtain ⟨rfl, rfl, rfl⟩ := hcall
    exact ⟨i, hr, hv, rfl, rfl, hc⟩

/-- C7, as amended: `PostWithdraw` forwards the decoded sum to
`Users.Withdraw` unchanged and without checking its sign. For every decoded
body whose order passes `luhn.Valid`, with no condition on the sum,
`Users.Withdraw` is applied once in the incoming state to exactly the decoded
order and sum, and the final state is the state the service left. Whenever
`Users.Withdraw` is called, the body decoded, its order passed `luhn.Valid`,
the order and sum passed are the decoded ones, and the logged return and the
final state are those of the service on these arguments. In particular, on a
valid order every sum that is not greater than zero reaches the service. -/
theorem PostWithdraw_forwards_decoded_sum (imp : Imports Os B Ws) (h : Handler σ Os B Ws)
    (st : σ) (r : http.Request) :
    (∀ inp, r.decodeWithdraw = .ok inp → imp.luhnValid inp.Order = true →
      (PostWithdraw imp h st r).calls =
        [Call.UsersWithdraw (r.userCtx.getD 0) ⟨inp.Order, inp.Sum⟩
          (h.services.Users.Withdraw st (r.userCtx.getD 0) ⟨inp.Order, inp.Sum⟩).1] ∧
      (PostWithdraw imp h st r).st =
        (h.services.Users.Withdraw st (r.userCtx.getD 0) ⟨inp.Order, inp.Sum⟩).2) ∧
    (∀ uid arg ret, Call.UsersWithdraw uid arg ret ∈ (PostWithdraw imp h st r).calls →
      ∃ inp, r.decodeWithdraw = .ok inp ∧ imp.luhnValid inp.Order = true ∧
        arg.Order = inp.Order ∧ arg.Sum = inp.Sum ∧
        (PostWithdraw imp h st r).calls = [Call.UsersWithdraw uid arg ret] ∧
        h.services.Users.Withdraw st uid arg = (ret, (PostWithdraw imp h st r).st)) ∧
    (∀ (order : String) (sum : Float32), imp.luhnValid order = true →
      sum.gtZero = false →
      (PostWithdraw imp h st { r with decodeWithdraw := .ok ⟨order, sum⟩ }).calls =
        [Call.UsersWithdraw (r.userCtx.getD 0) ⟨order, sum⟩
          (h.services.Users.Withdraw st (r.userCtx.getD 0) ⟨order, sum⟩).1] ∧
      (PostWithdraw imp h st { r with decodeWithdraw := .ok ⟨order, sum⟩ }).st =
        (h.services.Users.Withdraw st (r.userCtx.getD 0) ⟨order, sum⟩).2) := by
  refine ⟨?_, ?_, ?_⟩
  · intro inp hdec hv
    obtain ⟨_, r2⟩ := PostWithdraw_run imp h st r inp hdec
    exact ⟨(r2 hv).1, (r2 hv).2.1⟩
  · intro uid arg ret hcall
    obtain ⟨inp, hdec, hv, ho, hsum, hc⟩ := PostWithdraw_forwards_log imp h st r uid arg ret hcall
    obtain ⟨_, r2⟩ := PostWithdraw_run imp h st r inp hdec
    obtain ⟨k1, k2, _⟩ := r2 hv
    refine ⟨inp, hdec, hv, ho, hsum, hc, ?_⟩
    rw [k1] at hc
    simp only [List.cons.injEq, Call.UsersWithdraw.injEq, and_true] at hc
    obtain ⟨huid, harg, hret⟩ := hc
    rw [k2, ← huid, ← harg, ← hret]
  · intro order sum hv _
    obtain ⟨_, r2⟩ := PostWithdraw_run imp h st { r with decodeWithdraw := .ok ⟨order, sum⟩ }
      ⟨order, sum⟩ rfl
    exact ⟨(r2 hv).1, (r2 hv).2.1⟩

/-- C8: `GetWithdrawals` calls `Users.GetUserWithdrawals` once; the status is
204 exactly when the call returned an error matching
`domain.ErrWithdrawalNotFound`, and 500 for every other error. So a run whose
call reports no withdrawals and a run whose call returns another error never
answer with the same status. -/
theorem GetWithdrawals_empty_distinct_from_error (imp : Imports Os B Ws)
    (h : Handler σ Os B Ws) (st : σ) (r : http.Request) :
    ∃ uid ret, (GetWithdrawals imp h st r).calls = [Call.UsersGetUserWithdrawals uid ret] ∧
      ((GetWithdrawals imp h st r).w.status = some 204 ↔
        ∃ e, ret = some e ∧ errors.Is e domain.Sentinel.ErrWithdrawalNotFound = true) ∧
      (∀ e, ret = some e → errors.Is e domain.Sentinel.ErrWithdrawalNotFound = false →
        (GetWithdrawals imp h st r).w.status = some 500) ∧
      (∀ (imp2 : Imports Os B Ws) (h2 : Handler σ Os B Ws) (st2 : σ) (r2 : http.Request)
        (uid2 : Int) (e1 e2 : GoError),
        ret = some e1 → errors.Is e1 domain.Sentinel.ErrWithdrawalNotFound = true →
        Call.UsersGetUserWithdrawals uid2 (some e2) ∈ (GetWithdrawals imp2 h2 st2 r2).calls →
        errors.Is e2 domain.Sentinel.ErrWithdrawalNotFound = false →
        (GetWithdrawals imp h st r).w.status ≠ (GetWithdrawals imp2 h2 st2 r2).w.status) := by
  have other : ∀ (imp2 : Imports Os B Ws) (h2 : Handler σ Os B Ws) (st2 : σ) (r2 : http.Request)
      (uid2 : Int) (e2 : GoError),
      Call.UsersGetUserWithdrawals uid2 (some e2) ∈ (GetWithdrawals imp2 h2 st2 r2).calls →
      errors.Is e2 domain.Sentinel.ErrWithdrawalNotFound = false →
      (GetWithdrawals imp2 h2 st2 r2).w.status = some 500 := by
    intro imp2 h2 st2 r2 uid2 e2 hmem hno
    rcases GetWithdrawals_cases imp2 h2 st2 r2 with ⟨e, st1, _, hc, hs⟩ | ⟨ws, st1, _, hc, _⟩
    · rw [hc] at hmem
      simp only [List.mem_singleton, Call.UsersGetUserWithdrawals.injEq,
        Option.some.injEq] at hmem
      obtain ⟨_, rfl⟩ := hmem
      rw [hs, hno]; rfl
    · simp [hc] at hmem
  rcases GetWithdrawals_cases imp h st r with ⟨e, st1, _, hc, hs⟩ | ⟨ws, st1, _, hc, hs⟩
  · refine ⟨_, some e, hc, ?_, ?_, ?_⟩
    · rw [hs]
      cases hm : errors.Is e domain.Sentinel.ErrWithdrawalNotFound <;>
        simp [hm, http.StatusNoContent, http.StatusInternalServerError]
    · intro e0 he0 hno
      cases he0
      rw [hs, hno]; rfl
    · intro imp2 h2 st2 r2 uid2 e1 e2 he1 hyes hmem hno
      cases he1
      rw [hs, hyes, other imp2 h2 st2 r2 uid2 e2 hmem hno]
      decide
  · refine ⟨_, none, hc, ?_, ?_, ?_⟩
    · rcases hs with hs | hs <;> rw [hs] <;>
        simp [http.StatusInternalServerError, http.StatusOK]
    · intro e0 he0; cases he0
    · intro imp2 h2 st2 r2 uid2 e1 e2 he1; cases he1

/-- Without a value under `userCtx` the call logs name user 0, and each
handler runs as on the request of user 0. -/
theorem handlers_without_user_log (imp : Imports Os B Ws) (h : Handler σ Os B Ws)
    (st : σ) (r : http.Request) (hctx : r.userCtx = none) :
    ((∀ body, r.readAll = .ok body → imp.luhnValid (strings.TrimSpace body) = true →
        ∃ o ret, Call.UsersAddOrder o ret ∈ (PostOrders imp h st r).calls ∧ o.UserID = 0) ∧
      (∀ o ret, Call.UsersAddOrder o ret ∈ (PostOrders imp h st r).calls → o.UserID = 0)) ∧
    ((∀ inp, r.decodeWithdraw = .ok inp → imp.luhnValid inp.Order = true →
        ∃ arg ret, Call.UsersWithdraw 0 arg ret ∈ (PostWithdraw imp h st r).calls) ∧
      (∀ uid arg ret, Call.UsersWithdraw uid arg ret ∈ (PostWithdraw imp h st r).calls →
        uid = 0)) ∧
    (∃ ret, (GetBalance imp h st r).calls = [Call.UsersGetBalance 0 ret]) ∧
    (∃ ret, (GetOrders imp h st r).calls = [Call.UsersGetOrders 0 ret]) ∧
    (∃ ret, (GetWithdrawals imp h st r).calls = [Call.UsersGetUserWithdrawals 0 ret]) ∧
    (PostOrders imp h st r = PostOrders imp h st { r with userCtx := some 0 } ∧
      PostWithdraw imp h st r = PostWithdraw imp h st { r with userCtx := some 0 } ∧
      GetBalance imp h st r = GetBalance imp h st { r with userCtx := some 0 } ∧
      GetOrders imp h st r = GetOrders imp h st { r with userCtx := some 0 } ∧
      GetWithdrawals imp h st r = GetWithdrawals imp h st { r with userCtx := some 0 }) := by
  have hz : r.userCtx.getD 0 = 0 := by rw [hctx]; rfl
  refine ⟨⟨?_, ?_⟩, ⟨?_, ?_⟩, ?_, ?_, ?_, ?_⟩
  · intro body hread hvalid
    rcases PostOrders_cases imp h st r with
      ⟨e, hr, _, _, _⟩ | ⟨b, hr, hv, _, _, _⟩ | ⟨b, e, st1, hr, hv, _, hc, _, _⟩ |
      ⟨b, st1, hr, hv, _, hc, _, _⟩
    · rw [hread] at hr; cases hr
    · rw [hread] at hr; cases hr; rw [hvalid] at hv; cases hv
    · exact ⟨_, _, by rw [hc]; exact List.mem_singleton.mpr rfl, hz⟩
    · exact ⟨_, _, by rw [hc]; exact List.mem_cons_self _ _, hz⟩
  · intro o ret hmem
    rcases PostOrders_cases imp h st r with
      ⟨e, _, hc, _, _⟩ | ⟨b, _, _, hc, _, _⟩ | ⟨b, e, st1, _, _, _, hc, _, _⟩ |
      ⟨b, st1, _, _, _, hc, _, _⟩
    · simp [hc] at hmem
    · simp [hc] at hmem
    · rw [hc] at hmem
      simp only [List.mem_singleton, Call.UsersAddOrder.injEq] at hmem
      rw [hmem.1]; exact hz
    · rw [hc] at hmem
      simp only [List.mem_cons, Call.UsersAddOrder.injEq, List.mem_singleton, reduceCtorEq,
        or_false, List.not_mem_nil] at hmem
      rw [hmem.1]; exact hz
  · intro inp hdec hvalid
    rcases PostWithdraw_cases imp h st r with
      ⟨e, hr, _, _⟩ | ⟨i, hr, hv, _, _⟩ | ⟨i, ret1, st1, _, _, _, hc, _⟩
    · rw [hdec] at hr; cases hr
    · rw [hdec] at hr; cases hr; rw [hvalid] at hv; cases hv
    · exact ⟨_, _, by rw [hc, hz]; exact List.mem_singleton.mpr rfl⟩
  · intro uid arg ret hmem
    rcases PostWithdraw_cases imp h st r with
      ⟨e, _, hc, _⟩ | ⟨i, _, _, hc, _⟩ | ⟨i, ret1, st1, _, _, _, hc, _⟩
    · simp [hc] at hmem
    · simp [hc] at hmem
    · rw [hc] at hmem
      simp only [List.mem_singleton, Call.UsersWithdraw.injEq] at hmem
      rw [hmem.1]; exact hz
  · obtain ⟨ret, hc⟩ := GetBalance_calls imp h st r
    exact ⟨ret, by rw [hc, hz]⟩
  · obtain ⟨ret, hc⟩ := GetOrders_calls imp h st r
    exact ⟨ret, by rw [hc, hz]⟩
  · rcases GetWithdrawals_cases imp h st r with ⟨e, st1, _, hc, _⟩ | ⟨ws, st1, _, hc, _⟩
    · exact ⟨_, by rw [hc, hz]⟩
    · exact ⟨_, by rw [hc, hz]⟩
  · cases r with
    | mk ra dw uc now =>
      simp only at hctx
      subst hctx
      exact ⟨rfl, rfl, rfl, rfl, rfl⟩

/-- C10: when the request context holds no value under `userCtx`, no handler
rejects the request; each proceeds with owner identifier 0. `PostOrders`
admits a checksum-valid body as an order with `UserID` 0, `PostWithdraw`,
`GetBalance`, `GetOrders` and `GetWithdrawals` call the service with user
identifier 0, and every handler runs exactly as on the request of user 0.
The calls are the ones made on the service: `Users.AddOrder` is applied to the
order with `UserID` 0 (followed by `Updater.AddOrder` on that order when it
returns nil), `Users.Withdraw`, `Users.GetBalance`, `Users.GetOrders` and
`Users.GetUserWithdrawals` are applied to user 0 in the incoming state, the
final state is the one these applications leave, and a result that marshals
is answered 200. -/
theorem handlers_without_user_act_as_user_zero (imp : Imports Os B Ws) (h : Handler σ Os B Ws)
    (st : σ) (r : http.Request) (hctx : r.userCtx = none) :
    ((∀ body, r.readAll = .ok body → imp.luhnValid (strings.TrimSpace body) = true →
        ∃ o ret, Call.UsersAddOrder o ret ∈ (PostOrders imp h st r).calls ∧ o.UserID = 0) ∧
      (∀ o ret, Call.UsersAddOrder o ret ∈ (PostOrders imp h st r).calls → o.UserID = 0)) ∧
    ((∀ inp, r.decodeWithdraw = .ok inp → imp.luhnValid inp.Order = true →
        ∃ arg ret, Call.UsersWithdraw 0 arg ret ∈ (PostWithdraw imp h st r).calls) ∧
      (∀ uid arg ret, Call.UsersWithdraw uid arg ret ∈ (PostWithdraw imp h st r).calls →
        uid = 0)) ∧
    (∃ ret, (GetBalance imp h st r).calls = [Call.UsersGetBalance 0 ret]) ∧
    (∃ ret, (GetOrders imp h st r).calls = [Call.UsersGetOrders 0 ret]) ∧
    (∃ ret, (GetWithdrawals imp h st r).calls = [Call.UsersGetUserWithdrawals 0 ret]) ∧
    (PostOrders imp h st r = PostOrders imp h st { r with userCtx := some 0 } ∧
      PostWithdraw imp h st r = PostWithdraw imp h st { r with userCtx := some 0 } ∧
      GetBalance imp h st r = GetBalance imp h st { r with userCtx := some 0 } ∧
      GetOrders imp h st r = GetOrders imp h st { r with userCtx := some 0 } ∧
      GetWithdrawals imp h st r = GetWithdrawals imp h st { r with userCtx := some 0 }) ∧
    (∀ body, r.readAll = .ok body → imp.luhnValid (strings.TrimSpace body) = true →
      Call.UsersAddOrder
          ⟨strings.TrimSpace body, 0, domain.OrderStatus.OrderStatusNew, Float32.zero, r.now⟩
          (h.services.Users.AddOrder st
            ⟨strings.TrimSpace body, 0, domain.OrderStatus.OrderStatusNew, Float32.zero,
              r.now⟩).1 ∈ (PostOrders imp h st r).calls ∧
      ((h.services.Users.AddOrder st
          ⟨strings.TrimSpace body, 0, domain.OrderStatus.OrderStatusNew, Float32.zero,
            r.now⟩).1 = none →
        (PostOrders imp h st r).st = h.services.Updater.AddOrder
          (h.services.Users.AddOrder st
            ⟨strings.TrimSpace body, 0, domain.OrderStatus.OrderStatusNew, Float32.zero,
              r.now⟩).2
          ⟨strings.TrimSpace body, 0, domain.OrderStatus.OrderStatusNew, Float32.zero, r.now⟩ ∧
        (PostOrders imp h st r).w.status = some 202) ∧
      (∀ e, (h.services.Users.AddOrder st
          ⟨strings.TrimSpace body, 0, domain.OrderStatus.OrderStatusNew, Float32.zero,
            r.now⟩).1 = some e →
        (PostOrders imp h st r).st = (h.services.Users.AddOrder st
          ⟨strings.TrimSpace body, 0, domain.OrderStatus.OrderStatusNew, Float32.zero,
            r.now⟩).2)) ∧
    (∀ inp, r.decodeWithdraw = .ok inp → imp.luhnValid inp.Order = true →
      (PostWithdraw imp h st r).calls =
        [Call.UsersWithdraw 0 ⟨inp.Order, inp.Sum⟩
          (h.services.Users.Withdraw st 0 ⟨inp.Order, inp.Sum⟩).1] ∧
      (PostWithdraw imp h st r).st = (h.services.Users.Withdraw st 0 ⟨inp.Order, inp.Sum⟩).2 ∧
      ((h.services.Users.Withdraw st 0 ⟨inp.Order, inp.Sum⟩).1 = none →
        (PostWithdraw imp h st r).w.status = some 200)) ∧
    ((GetBalance imp h st r).calls =
        [Call.UsersGetBalance 0 (errOf (h.services.Users.GetBalance st 0).1)] ∧
      (GetBalance imp h st r).st = (h.services.Users.GetBalance st 0).2 ∧
      (∀ b data, (h.services.Users.GetBalance st 0).1 = .ok b →
        imp.marshalBalance b = .ok data → (GetBalance imp h st r).w.status = some 200)) ∧
    ((GetOrders imp h st r).calls =
        [Call.UsersGetOrders 0 (errOf (h.services.Users.GetOrders st 0).1)] ∧
      (GetOrders imp h st r).st = (h.services.Users.GetOrders st 0).2 ∧
      (∀ os data, (h.services.Users.GetOrders st 0).1 = .ok os →
        imp.marshalOrders os = .ok data → (GetOrders imp h st r).w.status = some 200)) ∧
    ((GetWithdrawals imp h st r).calls =
        [Call.UsersGetUserWithdrawals 0
          (errOf (h.services.Users.GetUserWithdrawals st 0).1)] ∧
      (GetWithdrawals imp h st r).st = (h.services.Users.GetUserWithdrawals st 0).2 ∧
      (∀ ws data, (h.services.Users.GetUserWithdrawals st 0).1 = .ok ws →
        imp.marshalWithdrawals ws = .ok data →
        (GetWithdrawals imp h st r).w.status = some 200)) := by
  have hz : r.userCtx.getD 0 = 0 := by rw [hctx]; rfl
  obtain ⟨l1, l2, l3, l4, l5, l6⟩ := handlers_without_user_log imp h st r hctx
  refine ⟨l1, l2, l3, l4, l5, l6, ?_, ?_, ?_, ?_, ?_⟩
  · intro body hread hvalid
    have ha := PostOrders_admission imp h st r body hread hvalid
    rw [hz] at ha
    obtain ⟨a1, a2, a3⟩ := ha
    exact ⟨a1, fun hn => ⟨(a2 hn).2.1, (a2 hn).2.2⟩, fun e he => (a3 e he).2⟩
  · intro inp hdec hvalid
    have hr := (PostWithdraw_run imp h st r inp hdec).2 hvalid
    rw [hz] at hr
    obtain ⟨k1, k2, k3⟩ := hr
    refine ⟨k1, k2, ?_⟩
    intro hn
    rw [k3, hn]; rfl
  · have hr := GetBalance_run imp h st r
    rw [hz] at hr
    exact hr
  · have hr := GetOrders_run imp h st r
    rw [hz] at hr
    exact hr
  · have hr := GetWithdrawals_run imp h st r
    rw [hz] at hr
    exact hr

end Claims

/-! ## Instances on the sample collaborators -/

/-- Instance of C1: the sample order re-submitted by its owner is answered 200,
and not with the 202 of a first acceptance. -/
theorem PostOrders_repeated_order_status_witness :
    Call.UsersAddOrder sample.order (some sample.errRepeated) ∈
      (PostOrders sample.imports (sample.failing sample.errRepeated) 0 sample.request).calls ∧
    errors.Is sample.errRepeated domain.Sentinel.ErrRepeatedOrderRequest = true ∧
    (PostOrders sample.imports (sample.failing sample.errRepeated) 0
      sample.request).w.status = some 200 ∧
    (PostOrders sample.imports sample.accepting 0 sample.request).w.status = some 202 :=
  ⟨by decide, by decide,
    (PostOrders_repeated_order_status sample.imports (sample.failing sample.errRepeated) 0
      sample.request sample.order sample.errRepeated (by decide) (by decide)).1,
    ((PostOrders_repeated_order_status sample.imports (sample.failing sample.errRepeated) 0
      sample.request sample.order sample.errRepeated (by decide) (by decide)).2.2
      sample.imports sample.accepting 0 sample.request sample.order (by decide)).1⟩

/-- Instance of C2: the sample order owned by another user is answered 409 and
is not enqueued; the service, which counts the calls it serves, has served the
one call to `Users.AddOrder`. -/
theorem PostOrders_foreign_order_conflict_witness :
    Call.UsersAddOrder sample.order (some sample.errForeign) ∈
      (PostOrders sample.imports (sample.failing sample.errForeign) 0 sample.request).calls ∧
    errors.Is sample.errForeign domain.Sentinel.ErrForeignOrder = true ∧
    errors.Is sample.errForeign domain.Sentinel.ErrRepeatedOrderRequest = false ∧
    (PostOrders sample.imports (sample.failing sample.errForeign) 0
      sample.request).w.status = some 409 ∧
    updaterAddOrderCount
      (PostOrders sample.imports (sample.failing sample.errForeign) 0 sample.request).calls = 0 ∧
    (PostOrders sample.imports (sample.failing sample.errForeign) 0 sample.request).st = 1 :=
  ⟨by decide, by decide, by decide,
    (PostOrders_foreign_order_conflict sample.imports (sample.failing sample.errForeign) 0
      sample.request sample.order sample.errForeign (by decide) (by decide) (by decide)).1,
    (PostOrders_foreign_order_conflict sample.imports (sample.failing sample.errForeign) 0
      sample.request sample.order sample.errForeign (by decide) (by decide) (by decide)).2.2.1,
    (PostOrders_foreign_order_conflict sample.imports (sample.failing sample.errForeign) 0
      sample.request sample.order sample.errForeign (by decide) (by decide)
      (by decide)).2.2.2.2.2.1⟩

/-- Instance of C3: the invalid fixture is answered 422 without any call. -/
theorem PostOrders_invalid_checksum_rejected_witness :
    sample.invalidRequest.readAll = .ok "79927398710" ∧
    sample.imports.luhnValid (strings.TrimSpace "79927398710") = false ∧
    (PostOrders sample.imports sample.accepting 0 sample.invalidRequest).w.status = some 422 ∧
    (PostOrders sample.imports sample.accepting 0 sample.invalidRequest).calls = [] :=
  ⟨rfl, by decide,
    (PostOrders_invalid_checksum_rejected sample.imports sample.accepting 0
      sample.invalidRequest "79927398710" rfl (by decide)).1,
    (PostOrders_invalid_checksum_rejected sample.imports sample.accepting 0
      sample.invalidRequest "79927398710" rfl (by decide)).2.1⟩

/-- Instance of C4: on the accepting service the sample request enqueues the
order once and is answered 202; the service has served two calls,
`Users.AddOrder` and `Updater.AddOrder`. -/
theorem PostOrders_enqueue_iff_accepted_witness :
    updaterAddOrderCount (PostOrders sample.imports sample.accepting 0 sample.request).calls = 1 ∧
    (PostOrders sample.imports sample.accepting 0 sample.request).w.status = some 202 ∧
    (PostOrders sample.imports sample.accepting 0 sample.request).calls =
      [Call.UsersAddOrder sample.order none, Call.UpdaterAddOrder sample.order] ∧
    (PostOrders sample.imports sample.accepting 0 sample.request).st = 2 :=
  ⟨by decide,
    (PostOrders_enqueue_iff_accepted sample.imports sample.accepting 0
      sample.request).2.1.mp (by decide),
    ((PostOrders_enqueue_iff_accepted sample.imports sample.accepting 0
      sample.request).2.2.2.2.2.2.2.2.1 sample.order (by decide)).1,
    ((PostOrders_enqueue_iff_accepted sample.imports sample.accepting 0
      sample.request).2.2.2.2.2.2.2.2.1 sample.order (by decide)).2.2⟩

/-- Instance of C5: the valid sample order reaches `Users.Withdraw`, which the
service serves once. -/
theorem PostWithdraw_calls_iff_checksum_valid_witness :
    sample.request.decodeWithdraw = .ok { Order := "79927398713", Sum := ⟨false, 127, 0⟩ } ∧
    sample.imports.luhnValid "79927398713" = true ∧
    (∃ uid arg ret, Call.UsersWithdraw uid arg ret ∈
      (PostWithdraw sample.imports sample.accepting 0 sample.request).calls) ∧
    (PostWithdraw sample.imports sample.accepting 0 sample.request).calls =
      [Call.UsersWithdraw 7 ⟨"79927398713", ⟨false, 127, 0⟩⟩ none] ∧
    (PostWithdraw sample.imports sample.accepting 0 sample.request).st = 1 :=
  ⟨rfl, by decide,
    (PostWithdraw_calls_iff_checksum_valid sample.imports sample.accepting 0 sample.request
      { Order := "79927398713", Sum := ⟨false, 127, 0⟩ } rfl).1.mpr (by decide),
    ((PostWithdraw_calls_iff_checksum_valid sample.imports sample.accepting 0 sample.request
      { Order := "79927398713", Sum := ⟨false, 127, 0⟩ } rfl).2.2.2.2 (by decide)).1,
    ((PostWithdraw_calls_iff_checksum_valid sample.imports sample.accepting 0 sample.request
      { Order := "79927398713", Sum := ⟨false, 127, 0⟩ } rfl).2.2.2.2 (by decide)).2⟩

/-- Instance of C6: insufficient funds are answered 402. -/
theorem PostWithdraw_status_by_service_result_witness :
    Call.UsersWithdraw 7 ⟨"79927398713", ⟨false, 127, 0⟩⟩ (some sample.errFunds) ∈
      (PostWithdraw sample.imports (sample.failing sample.errFunds) 0 sample.request).calls ∧
    (PostWithdraw sample.imports (sample.failing sample.errFunds) 0
      sample.request).w.status = some 402 :=
  ⟨by decide,
    (PostWithdraw_status_by_service_result sample.imports (sample.failing sample.errFunds) 0
      sample.request 7 ⟨"79927398713", ⟨false, 127, 0⟩⟩ (some sample.errFunds)
      (by decide)).1.mpr ⟨sample.errFunds, rfl, by decide⟩⟩

/-- Counterexample to C7 as stated: a decoded body with sum minus one, and one
with sum zero, both on a checksum-valid order, reach `Users.Withdraw` with
that sum, which is not greater than zero. -/
theorem PostWithdraw_positive_sum_counterexample :
    (Call.UsersWithdraw 7 ⟨"79927398713", ⟨true, 127, 0⟩⟩ none ∈
        (PostWithdraw sample.imports sample.accepting 0 sample.negativeRequest).calls ∧
      Float32.gtZero ⟨true, 127, 0⟩ = false) ∧
    (Call.UsersWithdraw 7 ⟨"79927398713", Float32.zero⟩ none ∈
        (PostWithdraw sample.imports sample.accepting 0 sample.zeroRequest).calls ∧
      Float32.gtZero Float32.zero = false) := by
  decide

/-- Instance of amended C7: the sum minus one is forwarded as decoded, and the
service serves the call. -/
theorem PostWithdraw_forwards_decoded_sum_witness :
    sample.negativeRequest.decodeWithdraw =
      .ok { Order := "79927398713", Sum := ⟨true, 127, 0⟩ } ∧
    sample.imports.luhnValid "79927398713" = true ∧
    Float32.gtZero ⟨true, 127, 0⟩ = false ∧
    (PostWithdraw sample.imports sample.accepting 0 sample.negativeRequest).calls =
      [Call.UsersWithdraw 7 ⟨"79927398713", ⟨true, 127, 0⟩⟩ none] ∧
    (PostWithdraw sample.imports sample.accepting 0 sample.negativeRequest).st = 1 :=
  ⟨rfl, by decide, by decide,
    ((PostWithdraw_forwards_decoded_sum sample.imports sample.accepting 0
      sample.negativeRequest).1 { Order := "79927398713", Sum := ⟨true, 127, 0⟩ } rfl
      (by decide)).1,
    ((PostWithdraw_forwards_decoded_sum sample.imports sample.accepting 0
      sample.negativeRequest).1 { Order := "79927398713", Sum := ⟨true, 127, 0⟩ } rfl
      (by decide)).2⟩

/-- Instance of C8: a service that reports no withdrawals is answered 204. -/
theorem GetWithdrawals_empty_distinct_from_error_witness :
    (GetWithdrawals sample.imports (sample.failing sample.errNoWithdrawals) 0
      sample.request).w.status = some 204 ∧
    (GetWithdrawals sample.imports (sample.failing sample.errStore) 0
      sample.request).w.status = some 500 ∧
    ∃ uid ret, (GetWithdrawals sample.imports (sample.failing sample.errNoWithdrawals) 0
      sample.request).calls = [Call.UsersGetUserWithdrawals uid ret] :=
  ⟨by decide, by decide,
    (GetWithdrawals_empty_distinct_from_error sample.imports
      (sample.failing sample.errNoWithdrawals) 0 sample.request).imp
      (fun _ hu => hu.imp (fun _ hr => hr.1))⟩

/-- Instance of C9: the order admitted for the sample request, which the
service receives. -/
theorem PostOrders_admitted_order_fields_witness :
    sample.request.readAll = .ok " 79927398713\n" ∧
    sample.imports.luhnValid (strings.TrimSpace " 79927398713\n") = true ∧
    Call.UsersAddOrder sample.order none ∈
      (PostOrders sample.imports sample.accepting 0 sample.request).calls ∧
    sample.order.Status = domain.OrderStatus.OrderStatusNew ∧
    sample.order.Accrual = Float32.zero ∧
    sample.order.UserID = 7 ∧
    sample.order.Number = strings.TrimSpace " 79927398713\n" ∧
    (PostOrders sample.imports sample.accepting 0 sample.request).st = 2 :=
  ⟨rfl, by decide, by decide,
    ((PostOrders_admitted_order_fields sample.imports sample.accepting 0 sample.request
      " 79927398713\n" rfl (by decide)).2.1 sample.order none (by decide)).1,
    ((PostOrders_admitted_order_fields sample.imports sample.accepting 0 sample.request
      " 79927398713\n" rfl (by decide)).2.1 sample.order none (by decide)).2.1,
    ((PostOrders_admitted_order_fields sample.imports sample.accepting 0 sample.request
      " 79927398713\n" rfl (by decide)).2.1 sample.order none (by decide)).2.2.1 7 rfl,
    ((PostOrders_admitted_order_fields sample.imports sample.accepting 0 sample.request
      " 79927398713\n" rfl (by decide)).2.1 sample.order none (by decide)).2.2.2.1,
    ((PostOrders_admitted_order_fields sample.imports sample.accepting 0 sample.request
      " 79927398713\n" rfl (by decide)).2.2.1 sample.order none (by decide)).2.2.1 rfl⟩

/-- Instance of C10: the sample request without a user is admitted for user
0, and the balance of user 0 is read from the service and answered 200. -/
theorem handlers_without_user_act_as_user_zero_witness :
    sample.anonymousRequest.userCtx = none ∧
    (∃ o ret, Call.UsersAddOrder o ret ∈
      (PostOrders sample.imports sample.accepting 0 sample.anonymousRequest).calls ∧
      o.UserID = 0) ∧
    (∃ ret, (GetBalance sample.imports sample.accepting 0 sample.anonymousRequest).calls =
      [Call.UsersGetBalance 0 ret]) ∧
    (GetBalance sample.imports sample.accepting 0 sample.anonymousRequest).calls =
      [Call.UsersGetBalance 0 none] ∧
    (GetBalance sample.imports sample.accepting 0 sample.anonymousRequest).st = 1 ∧
    (GetBalance sample.imports sample.accepting 0 sample.anonymousRequest).w.status = some 200 :=
  ⟨rfl,
    (handlers_without_user_act_as_user_zero sample.imports sample.accepting 0
      sample.anonymousRequest rfl).1.1 " 79927398713\n" rfl (by decide),
    (handlers_without_user_act_as_user_zero sample.imports sample.accepting 0
      sample.anonymousRequest rfl).2.2.1,
    (handlers_without_user_act_as_user_zero sample.imports sample.accepting 0
      sample.anonymousRequest rfl).2.2.2.2.2.2.2.2.1.1,
    (handlers_without_user_act_as_user_zero sample.imports sample.accepting 0
      sample.anonymousRequest rfl).2.2.2.2.2.2.2.2.1.2.1,
    (handlers_without_user_act_as_user_zero sample.imports sample.accepting 0
      sample.anonymousRequest rfl).2.2.2.2.2.2.2.2.1.2.2 () "0" rfl rfl⟩
